import Mathlib

/-!
Peloton: write-ahead backend logger, projection evaluation, backend statistics context.

A shallow embedding of

* `src/backend/logging/loggers/wal_backend_logger.cpp`
  (`WriteAheadBackendLogger::Log`, `GetTupleRecord`, `GetHighestLoggedCommitId`),
* `src/planner/project_info.cpp` (`ProjectInfo::Evaluate`),
* `src/statistics/backend_stats_context.cpp` (the metric accessors, the Increment
  operations and `Aggregate`),

and of the visibility rule and the read of the specification, followed by the
properties proved about them.

Conventions.  `cid_t`, `txn_id_t` and `oid_t` are unsigned machine integers; the code
only copies and compares them (no arithmetic), so they are embedded as `Nat`.
A C `assert` is embedded with assertions enabled: a failed assertion ends the call,
and the embedding keeps the state reached at that point.
-/

namespace peloton

/-! ## Definitions -/

/-- Result of a call whose body contains an `assert`: the call returns in state `s`, or
an assertion fails while the object is in state `s` (the statements before the
assertion have already taken effect). -/
inductive Outcome (σ : Type) where
  | returned (s : σ)
  | assertion_failed (s : σ)
  deriving DecidableEq, Repr

/-- State in which the call ended, whether it returned or stopped at an assertion. -/
def Outcome.state {σ : Type} : Outcome σ → σ
  | .returned s => s
  | .assertion_failed s => s

/-- Whether the call returned (no assertion failed). -/
def Outcome.ok {σ : Type} : Outcome σ → Bool
  | .returned _ => true
  | .assertion_failed _ => false

namespace logging

/-- Modelled from the spec: the `LogRecordType` enumeration, whose declaration is in a
header outside the sources.  It holds the tags of the spec's log record
(BEGIN, COMMIT, ABORT, TUPLE_INSERT, TUPLE_UPDATE, TUPLE_DELETE) and the three
write-ahead tags that `GetTupleRecord` assigns. -/
inductive LogRecordType where
  | LOGRECORD_TYPE_TRANSACTION_BEGIN
  | LOGRECORD_TYPE_TRANSACTION_COMMIT
  | LOGRECORD_TYPE_TRANSACTION_ABORT
  | LOGRECORD_TYPE_TUPLE_INSERT
  | LOGRECORD_TYPE_TUPLE_DELETE
  | LOGRECORD_TYPE_TUPLE_UPDATE
  | LOGRECORD_TYPE_WAL_TUPLE_INSERT
  | LOGRECORD_TYPE_WAL_TUPLE_DELETE
  | LOGRECORD_TYPE_WAL_TUPLE_UPDATE
  deriving DecidableEq, Repr

open LogRecordType

/-- Tuple locator `ItemPointer`: a block (tile group) id and an offset in it. -/
structure ItemPointer where
  block : Nat
  offset : Nat
  deriving DecidableEq, Repr

/-- Modelled from the spec: the `TupleRecord` class (header outside the sources).  Its
fields are listed in the order of the constructor call in `GetTupleRecord`,
`TupleRecord(log_record_type, txn_id, table_oid, insert_location, delete_location,
data, db_oid)`, and the constructor stores each argument in the field of that
position.  `data` is the `void *` payload pointer, embedded as an address. -/
structure TupleRecord where
  log_record_type : LogRecordType
  cid : Nat
  table_oid : Nat
  insert_location : ItemPointer
  delete_location : ItemPointer
  data : Nat
  db_oid : Nat
  deriving DecidableEq, Repr

/-- Modelled from the spec: the `LogRecord` base class as the sum of its two kinds of
records: a transaction record (BEGIN, COMMIT, ABORT) carrying a type and an id, and a
tuple record. -/
inductive LogRecord where
  | TransactionRecord (log_record_type : LogRecordType) (cid : Nat)
  | Tuple (r : TupleRecord)
  deriving DecidableEq, Repr

/-- Accessor `LogRecord::GetType`. -/
def LogRecord.GetType : LogRecord → LogRecordType
  | .TransactionRecord t _ => t
  | .Tuple r => r.log_record_type

/-- Accessor `LogRecord::GetTransactionId`. -/
def LogRecord.GetTransactionId : LogRecord → Nat
  | .TransactionRecord _ c => c
  | .Tuple r => r.cid

/-- Members of `WriteAheadBackendLogger` that `Log` touches: the serialization buffer
(a byte sequence), the local queue and the highest logged commit id. -/
structure WriteAheadBackendLogger where
  output_buffer : List Nat
  local_queue : List LogRecord
  highest_logged_commit_id : Nat
  deriving DecidableEq, Repr

/-- `WriteAheadBackendLogger::Log` (wal_backend_logger.cpp, lines 27-39).
`Serialize` stands for the virtual `LogRecord::Serialize`, whose body is outside the
sources: it is given the record and the buffer and yields the new buffer.  The
lock guard has no effect on the sequential behaviour. -/
def WriteAheadBackendLogger.Log (Serialize : LogRecord → List Nat → List Nat)
    (self : WriteAheadBackendLogger) (record : LogRecord) :
    Outcome WriteAheadBackendLogger :=
  -- record->Serialize(output_buffer);
  let s1 : WriteAheadBackendLogger :=
    { self with output_buffer := Serialize record self.output_buffer }
  -- local_queue.push_back(std::unique_ptr<LogRecord>(record));
  let s2 : WriteAheadBackendLogger :=
    { s1 with local_queue := s1.local_queue ++ [record] }
  if record.GetType = LOGRECORD_TYPE_TRANSACTION_COMMIT then
    -- assert(record->GetTransactionId() > highest_logged_commit_id);
    if record.GetTransactionId > s2.highest_logged_commit_id then
      -- highest_logged_commit_id = record->GetTransactionId();
      .returned { s2 with highest_logged_commit_id := record.GetTransactionId }
    else
      .assertion_failed s2
  else
    .returned s2

/-- `WriteAheadBackendLogger::GetHighestLoggedCommitId` (lines 75-77): the value
returned, paired with the state after the call. -/
def WriteAheadBackendLogger.GetHighestLoggedCommitId (self : WriteAheadBackendLogger) :
    Nat × WriteAheadBackendLogger :=
  (self.highest_logged_commit_id, self)

/-- `WriteAheadBackendLogger::GetTupleRecord` (lines 41-73).  `none` is the
`assert(false)` of the `default` branch. -/
def WriteAheadBackendLogger.GetTupleRecord (log_record_type : LogRecordType)
    (txn_id : Nat) (table_oid : Nat) (db_oid : Nat) (insert_location : ItemPointer)
    (delete_location : ItemPointer) (data : Nat) : Option LogRecord :=
  let translated : Option LogRecordType :=
    match log_record_type with
    | LOGRECORD_TYPE_TUPLE_INSERT => some LOGRECORD_TYPE_WAL_TUPLE_INSERT
    | LOGRECORD_TYPE_TUPLE_DELETE => some LOGRECORD_TYPE_WAL_TUPLE_DELETE
    | LOGRECORD_TYPE_TUPLE_UPDATE => some LOGRECORD_TYPE_WAL_TUPLE_UPDATE
    | _ => none
  match translated with
  | none => none
  | some log_record_type =>
    some (.Tuple (TupleRecord.mk log_record_type txn_id table_oid insert_location
      delete_location data db_oid))

/-- A finite sequence of `Log` calls on one backend, in order; it stops at the first
call whose assertion fails. -/
def WriteAheadBackendLogger.LogAll (Serialize : LogRecord → List Nat → List Nat) :
    WriteAheadBackendLogger → List LogRecord → Outcome WriteAheadBackendLogger
  | s, [] => .returned s
  | s, r :: rs =>
    match s.Log Serialize r with
    | .returned s1 => WriteAheadBackendLogger.LogAll Serialize s1 rs
    | .assertion_failed s1 => .assertion_failed s1

/-- Ids of the COMMIT records of a sequence of records, in the order of the sequence. -/
def commitIds (q : List LogRecord) : List Nat :=
  (q.filter (fun r => r.GetType = LOGRECORD_TYPE_TRANSACTION_COMMIT)).map
    LogRecord.GetTransactionId

end logging

namespace planner

/-- Memory pool handle `VarlenPool *` (an address). -/
abbrev VarlenPool := Nat

/-- Executor context, of which `Evaluate` reads only the varlen pool. -/
structure ExecutorContext where
  pool : VarlenPool
  deriving DecidableEq, Repr

/-- Accessor `ExecutorContext::GetExecutorContextPool`. -/
def ExecutorContext.GetExecutorContextPool (self : ExecutorContext) : VarlenPool :=
  self.pool

/-- Modelled from the spec: a source tuple (`AbstractTuple`, header outside the sources)
as the total map `GetValue` from column id to value. -/
structure AbstractTuple (Value : Type) where
  GetValue : Nat → Value

/-- Modelled from the spec: the pre-allocated destination tuple (`storage::Tuple`, header
outside the sources) as the total map from column id to the value it holds. -/
structure Tuple (Value : Type) where
  GetValue : Nat → Value

/-- Modelled from the spec: `Tuple::SetValue(column_id, value, pool)` stores `value` in
column `column_id` and leaves the other columns; the pool only decides where a
non-inlined value is allocated. -/
def Tuple.SetValue {Value : Type} (self : Tuple Value) (column_id : Nat) (value : Value)
    (_pool : Option VarlenPool) : Tuple Value :=
  ⟨fun c => if c = column_id then value else self.GetValue c⟩

/-- Modelled from the spec: an expression of the target list (`AbstractExpression`, header
outside the sources): `Evaluate(tuple1, tuple2, econtext)` yields a value. -/
structure AbstractExpression (Value : Type) where
  Evaluate : AbstractTuple Value → AbstractTuple Value → Option ExecutorContext → Value

/-- Members of `ProjectInfo`: the target list of (destination column id, expression) and
the direct map list of (destination column id, (tuple index, source column id)). -/
structure ProjectInfo (Value : Type) where
  target_list_ : List (Nat × AbstractExpression Value)
  direct_map_list_ : List (Nat × (Nat × Nat))

/-- `ProjectInfo::Evaluate` (project_info.cpp, lines 48-78): the returned flag and the
destination tuple after the call.  Both source tuples are present and distinct from
the destination, as the function's comment requires. -/
def ProjectInfo.Evaluate {Value : Type} (self : ProjectInfo Value) (dest : Tuple Value)
    (tuple1 tuple2 : AbstractTuple Value) (econtext : Option ExecutorContext) :
    Bool × Tuple Value :=
  -- if (econtext != nullptr) pool = econtext->GetExecutorContextPool();
  let pool : Option VarlenPool :=
    match econtext with
    | none => none
    | some e => some e.GetExecutorContextPool
  -- (A) Execute target list
  let dest := self.target_list_.foldl (fun dest target =>
    let col_id := target.1
    let expr := target.2
    let value := expr.Evaluate tuple1 tuple2 econtext
    dest.SetValue col_id value pool) dest
  -- (B) Execute direct map
  let dest := self.direct_map_list_.foldl (fun dest dm =>
    let dest_col_id := dm.1
    let tuple_index := dm.2.1
    let src_col_id := dm.2.2
    let value := if tuple_index = 0 then tuple1.GetValue src_col_id
                 else tuple2.GetValue src_col_id
    dest.SetValue dest_col_id value pool) dest
  (true, dest)

end planner

namespace mvcc

end mvcc

namespace stats

/-! An `std::unordered_map` is embedded as the list of its entries, a key occurring at
most once (`BackendStatsContext.WellFormed`); the order of the list stands for the
unspecified iteration order. -/

/-- Lookup `m.find(k)`: the value stored under `k`, or `none` for `m.end()`. -/
def find {K V : Type} [DecidableEq K] : List (K × V) → K → Option V
  | [], _ => none
  | (k1, v) :: rest, k => if k1 = k then some v else find rest k

/-- Assignment `m[k] = v`: the value under `k` is replaced, or a new entry is added when
`k` has none.  It is also the write through a pointer to the value stored under `k`. -/
def assign {K V : Type} [DecidableEq K] : List (K × V) → K → V → List (K × V)
  | [], k, v => [(k, v)]
  | (k1, v1) :: rest, k, v =>
    if k1 = k then (k1, v) :: rest else (k1, v1) :: assign rest k v

/-- Keys of a map. -/
def keys {K V : Type} (m : List (K × V)) : List K :=
  m.map Prod.fst

/-- Modelled from the spec: `DatabaseMetric` (header outside the sources): the id of the
database and the counters of committed and aborted transactions.  The width of the
counters is declared outside the sources; they are counted here without bound. -/
structure DatabaseMetric where
  database_id_ : Nat
  txn_committed_ : Nat
  txn_aborted_ : Nat
  deriving DecidableEq, Repr

/-- Modelled from the spec: `new DatabaseMetric{DATABASE_METRIC, database_id}`, a metric of
the database with both counters at zero. -/
def DatabaseMetric.new (database_id : Nat) : DatabaseMetric :=
  ⟨database_id, 0, 0⟩

/-- Modelled from the spec: `DatabaseMetric::IncrementTxnCommitted`, one more committed
transaction. -/
def DatabaseMetric.IncrementTxnCommitted (self : DatabaseMetric) : DatabaseMetric :=
  { self with txn_committed_ := self.txn_committed_ + 1 }

/-- Modelled from the spec: `DatabaseMetric::IncrementTxnAborted`, one more aborted
transaction. -/
def DatabaseMetric.IncrementTxnAborted (self : DatabaseMetric) : DatabaseMetric :=
  { self with txn_aborted_ := self.txn_aborted_ + 1 }

/-- Modelled from the spec: `DatabaseMetric::Aggregate(source)`, the counters of `source`
added to those of the metric. -/
def DatabaseMetric.Aggregate (self source : DatabaseMetric) : DatabaseMetric :=
  { self with
    txn_committed_ := self.txn_committed_ + source.txn_committed_
    txn_aborted_ := self.txn_aborted_ + source.txn_aborted_ }

/-- Modelled from the spec: `AccessMetric` (header outside the sources): the counters of
reads, updates, inserts and deletes of a table or an index. -/
structure AccessMetric where
  reads : Nat
  updates : Nat
  inserts : Nat
  deletes : Nat
  deriving DecidableEq, Repr

/-- Modelled from the spec: `AccessMetric::IncrementReads(count)`; the call without
argument counts one read. -/
def AccessMetric.IncrementReads (self : AccessMetric) (count : Nat) : AccessMetric :=
  { self with reads := self.reads + count }

/-- Modelled from the spec: `AccessMetric::IncrementUpdates()`. -/
def AccessMetric.IncrementUpdates (self : AccessMetric) : AccessMetric :=
  { self with updates := self.updates + 1 }

/-- Modelled from the spec: `AccessMetric::IncrementInserts()`. -/
def AccessMetric.IncrementInserts (self : AccessMetric) : AccessMetric :=
  { self with inserts := self.inserts + 1 }

/-- Modelled from the spec: `AccessMetric::IncrementDeletes(count)`; the call without
argument counts one delete. -/
def AccessMetric.IncrementDeletes (self : AccessMetric) (count : Nat) : AccessMetric :=
  { self with deletes := self.deletes + count }

/-- Modelled from the spec: `AccessMetric::Aggregate(source)`, counter by counter. -/
def AccessMetric.Aggregate (self source : AccessMetric) : AccessMetric :=
  ⟨self.reads + source.reads, self.updates + source.updates,
    self.inserts + source.inserts, self.deletes + source.deletes⟩

/-- Modelled from the spec: `TableMetric` (header outside the sources): the ids of the
database and of the table, and the access counters of the table. -/
structure TableMetric where
  database_id_ : Nat
  table_id_ : Nat
  table_access_ : AccessMetric
  deriving DecidableEq, Repr

/-- Modelled from the spec: `new TableMetric{TABLE_METRIC, database_id, table_id}`. -/
def TableMetric.new (database_id table_id : Nat) : TableMetric :=
  ⟨database_id, table_id, ⟨0, 0, 0, 0⟩⟩

/-- Accessor `TableMetric::GetDatabaseId`. -/
def TableMetric.GetDatabaseId (self : TableMetric) : Nat := self.database_id_

/-- Accessor `TableMetric::GetTableId`. -/
def TableMetric.GetTableId (self : TableMetric) : Nat := self.table_id_

/-- Modelled from the spec: `TableMetric::Aggregate(source)`, the access counters of
`source` added to those of the metric. -/
def TableMetric.Aggregate (self source : TableMetric) : TableMetric :=
  { self with table_access_ := self.table_access_.Aggregate source.table_access_ }

/-- Modelled from the spec: `IndexMetric` (header outside the sources): the ids of the
database, of the table and of the index, and the access counters of the index. -/
structure IndexMetric where
  database_id_ : Nat
  table_id_ : Nat
  index_id_ : Nat
  index_access_ : AccessMetric
  deriving DecidableEq, Repr

/-- Modelled from the spec:
`new IndexMetric{INDEX_METRIC, database_id, table_id, index_id}`. -/
def IndexMetric.new (database_id table_id index_id : Nat) : IndexMetric :=
  ⟨database_id, table_id, index_id, ⟨0, 0, 0, 0⟩⟩

/-- Accessor `IndexMetric::GetDatabaseId`. -/
def IndexMetric.GetDatabaseId (self : IndexMetric) : Nat := self.database_id_

/-- Accessor `IndexMetric::GetTableId`. -/
def IndexMetric.GetTableId (self : IndexMetric) : Nat := self.table_id_

/-- Accessor `IndexMetric::GetIndexId`. -/
def IndexMetric.GetIndexId (self : IndexMetric) : Nat := self.index_id_

/-- Modelled from the spec: `IndexMetric::Aggregate(source)`, the access counters of
`source` added to those of the metric. -/
def IndexMetric.Aggregate (self source : IndexMetric) : IndexMetric :=
  { self with index_access_ := self.index_access_.Aggregate source.index_access_ }

/-- Ids that `catalog::Manager::GetInstance().GetTileGroup(tile_group_id)` gives for a
tile group of the catalog. -/
structure TileGroup where
  table_id : Nat
  database_id : Nat
  deriving DecidableEq, Repr

/-- Ids held by an `index::IndexMetadata`. -/
structure IndexMetadata where
  index_oid : Nat
  table_oid : Nat
  database_oid : Nat
  deriving DecidableEq, Repr

/-- The three metric maps of `BackendStatsContext`.  `TableKey` and `IndexKey` are the key
types `TableMetric::TableKey` and `IndexMetric::IndexKey`, declared outside the sources.
The latency metric `txn_latencies_` is not part of the embedding: it holds
floating-point latencies and no statement on it reads or writes the maps. -/
structure BackendStatsContext (TableKey IndexKey : Type) where
  database_metrics_ : List (Nat × DatabaseMetric)
  table_metrics_ : List (TableKey × TableMetric)
  index_metrics_ : List (IndexKey × IndexMetric)

variable {TableKey IndexKey : Type} [DecidableEq TableKey] [DecidableEq IndexKey]

/-- `BackendStatsContext::GetTableMetric` (backend_stats_context.cpp, lines 59-67): the
pointer returned (`none` for a null pointer) and the context after the call.
`TableGetKey` is `TableMetric::GetKey`, defined outside the sources. -/
def BackendStatsContext.GetTableMetric (TableGetKey : Nat → Nat → TableKey)
    (self : BackendStatsContext TableKey IndexKey) (database_id table_id : Nat) :
    Option TableMetric × BackendStatsContext TableKey IndexKey :=
  let table_key := TableGetKey database_id table_id
  let s1 : BackendStatsContext TableKey IndexKey :=
    if (find self.table_metrics_ table_key).isNone then
      { self with
        table_metrics_ :=
          assign self.table_metrics_ table_key (TableMetric.new database_id table_id) }
    else self
  (find s1.table_metrics_ table_key, s1)

/-- `BackendStatsContext::GetDatabaseMetric` (lines 70-76): the pointer returned (`none`
for a null pointer) and the context after the call. -/
def BackendStatsContext.GetDatabaseMetric (self : BackendStatsContext TableKey IndexKey)
    (database_id : Nat) :
    Option DatabaseMetric × BackendStatsContext TableKey IndexKey :=
  let s1 : BackendStatsContext TableKey IndexKey :=
    if (find self.database_metrics_ database_id).isNone then
      { self with
        database_metrics_ :=
          assign self.database_metrics_ database_id (DatabaseMetric.new database_id) }
    else self
  (find s1.database_metrics_ database_id, s1)

/-- `BackendStatsContext::GetIndexMetric` (lines 80-90): the pointer returned (`none` for
a null pointer) and the context after the call.  `IndexGetKey` is
`IndexMetric::GetKey`, defined outside the sources. -/
def BackendStatsContext.GetIndexMetric (IndexGetKey : Nat → Nat → Nat → IndexKey)
    (self : BackendStatsContext TableKey IndexKey) (database_id table_id index_id : Nat) :
    Option IndexMetric × BackendStatsContext TableKey IndexKey :=
  let index_key := IndexGetKey database_id table_id index_id
  let s1 : BackendStatsContext TableKey IndexKey :=
    if (find self.index_metrics_ index_key).isNone then
      { self with
        index_metrics_ :=
          assign self.index_metrics_ index_key
            (IndexMetric.new database_id table_id index_id) }
    else self
  (find s1.index_metrics_ index_key, s1)

end stats

namespace stats

variable {TableKey IndexKey : Type} [DecidableEq TableKey] [DecidableEq IndexKey]

/-- `BackendStatsContext::IncrementTableReads(oid_t tile_group_id)` (lines 96-105).
`GetTileGroup` is the lookup of the catalog manager, the tile group being in the
catalog. -/
def BackendStatsContext.IncrementTableReads (TableGetKey : Nat → Nat → TableKey)
    (GetTileGroup : Nat → TileGroup) (self : BackendStatsContext TableKey IndexKey)
    (tile_group_id : Nat) : Outcome (BackendStatsContext TableKey IndexKey) :=
  let table_id := (GetTileGroup tile_group_id).table_id
  let database_id := (GetTileGroup tile_group_id).database_id
  let got := self.GetTableMetric TableGetKey database_id table_id
  -- PL_ASSERT(table_metric != nullptr);
  match got.1 with
  | none => .assertion_failed got.2
  | some table_metric =>
    .returned { got.2 with
      table_metrics_ := assign got.2.table_metrics_ (TableGetKey database_id table_id)
        { table_metric with table_access_ := table_metric.table_access_.IncrementReads 1 } }

/-- `BackendStatsContext::IncrementTableInserts(oid_t tile_group_id)` (lines 107-116).
`GetTileGroup` is the lookup of the catalog manager, the tile group being in the
catalog. -/
def BackendStatsContext.IncrementTableInserts (TableGetKey : Nat → Nat → TableKey)
    (GetTileGroup : Nat → TileGroup) (self : BackendStatsContext TableKey IndexKey)
    (tile_group_id : Nat) : Outcome (BackendStatsContext TableKey IndexKey) :=
  let table_id := (GetTileGroup tile_group_id).table_id
  let database_id := (GetTileGroup tile_group_id).database_id
  let got := self.GetTableMetric TableGetKey database_id table_id
  -- PL_ASSERT(table_metric != nullptr);
  match got.1 with
  | none => .assertion_failed got.2
  | some table_metric =>
    .returned { got.2 with
      table_metrics_ := assign got.2.table_metrics_ (TableGetKey database_id table_id)
        { table_metric with table_access_ := table_metric.table_access_.IncrementInserts } }

/-- `BackendStatsContext::IncrementTableUpdates(oid_t tile_group_id)` (lines 118-127).
`GetTileGroup` is the lookup of the catalog manager, the tile group being in the
catalog. -/
def BackendStatsContext.IncrementTableUpdates (TableGetKey : Nat → Nat → TableKey)
    (GetTileGroup : Nat → TileGroup) (self : BackendStatsContext TableKey IndexKey)
    (tile_group_id : Nat) : Outcome (BackendStatsContext TableKey IndexKey) :=
  let table_id := (GetTileGroup tile_group_id).table_id
  let database_id := (GetTileGroup tile_group_id).database_id
  let got := self.GetTableMetric TableGetKey database_id table_id
  -- PL_ASSERT(table_metric != nullptr);
  match got.1 with
  | none => .assertion_failed got.2
  | some table_metric =>
    .returned { got.2 with
      table_metrics_ := assign got.2.table_metrics_ (TableGetKey database_id table_id)
        { table_metric with table_access_ := table_metric.table_access_.IncrementUpdates } }

/-- `BackendStatsContext::IncrementTableDeletes(oid_t tile_group_id)` (lines 129-138).
`GetTileGroup` is the lookup of the catalog manager, the tile group being in the
catalog. -/
def BackendStatsContext.IncrementTableDeletes (TableGetKey : Nat → Nat → TableKey)
    (GetTileGroup : Nat → TileGroup) (self : BackendStatsContext TableKey IndexKey)
    (tile_group_id : Nat) : Outcome (BackendStatsContext TableKey IndexKey) :=
  let table_id := (GetTileGroup tile_group_id).table_id
  let database_id := (GetTileGroup tile_group_id).database_id
  let got := self.GetTableMetric TableGetKey database_id table_id
  -- PL_ASSERT(table_metric != nullptr);
  match got.1 with
  | none => .assertion_failed got.2
  | some table_metric =>
    .returned { got.2 with
      table_metrics_ := assign got.2.table_metrics_ (TableGetKey database_id table_id)
        { table_metric with table_access_ := table_metric.table_access_.IncrementDeletes 1 } }

/-- `BackendStatsContext::IncrementIndexReads` on an index metadata (lines 140-148). -/
def BackendStatsContext.IncrementIndexReads (IndexGetKey : Nat → Nat → Nat → IndexKey)
    (self : BackendStatsContext TableKey IndexKey) (read_count : Nat) (metadata : IndexMetadata) :
    Outcome (BackendStatsContext TableKey IndexKey) :=
  let index_id := metadata.index_oid
  let table_id := metadata.table_oid
  let database_id := metadata.database_oid
  let got := self.GetIndexMetric IndexGetKey database_id table_id index_id
  -- PL_ASSERT(index_metric != nullptr);
  match got.1 with
  | none => .assertion_failed got.2
  | some index_metric =>
    .returned { got.2 with
      index_metrics_ :=
        assign got.2.index_metrics_ (IndexGetKey database_id table_id index_id)
          { index_metric with index_access_ := index_metric.index_access_.IncrementReads read_count } }

/-- `BackendStatsContext::IncrementIndexInserts` on an index metadata (lines 150-158). -/
def BackendStatsContext.IncrementIndexInserts (IndexGetKey : Nat → Nat → Nat → IndexKey)
    (self : BackendStatsContext TableKey IndexKey) (metadata : IndexMetadata) :
    Outcome (BackendStatsContext TableKey IndexKey) :=
  let index_id := metadata.index_oid
  let table_id := metadata.table_oid
  let database_id := metadata.database_oid
  let got := self.GetIndexMetric IndexGetKey database_id table_id index_id
  -- PL_ASSERT(index_metric != nullptr);
  match got.1 with
  | none => .assertion_failed got.2
  | some index_metric =>
    .returned { got.2 with
      index_metrics_ :=
        assign got.2.index_metrics_ (IndexGetKey database_id table_id index_id)
          { index_metric with index_access_ := index_metric.index_access_.IncrementInserts } }

/-- `BackendStatsContext::IncrementTableUpdates` on an index metadata (lines 160-168).
The source names this overload `IncrementTableUpdates` too; it updates the index
metric. -/
def BackendStatsContext.IncrementTableUpdates_metadata (IndexGetKey : Nat → Nat → Nat → IndexKey)
    (self : BackendStatsContext TableKey IndexKey) (metadata : IndexMetadata) :
    Outcome (BackendStatsContext TableKey IndexKey) :=
  let index_id := metadata.index_oid
  let table_id := metadata.table_oid
  let database_id := metadata.database_oid
  let got := self.GetIndexMetric IndexGetKey database_id table_id index_id
  -- PL_ASSERT(index_metric != nullptr);
  match got.1 with
  | none => .assertion_failed got.2
  | some index_metric =>
    .returned { got.2 with
      index_metrics_ :=
        assign got.2.index_metrics_ (IndexGetKey database_id table_id index_id)
          { index_metric with index_access_ := index_metric.index_access_.IncrementUpdates } }

/-- `BackendStatsContext::IncrementIndexDeletes` on an index metadata (lines 170-178). -/
def BackendStatsContext.IncrementIndexDeletes (IndexGetKey : Nat → Nat → Nat → IndexKey)
    (self : BackendStatsContext TableKey IndexKey) (delete_count : Nat) (metadata : IndexMetadata) :
    Outcome (BackendStatsContext TableKey IndexKey) :=
  let index_id := metadata.index_oid
  let table_id := metadata.table_oid
  let database_id := metadata.database_oid
  let got := self.GetIndexMetric IndexGetKey database_id table_id index_id
  -- PL_ASSERT(index_metric != nullptr);
  match got.1 with
  | none => .assertion_failed got.2
  | some index_metric =>
    .returned { got.2 with
      index_metrics_ :=
        assign got.2.index_metrics_ (IndexGetKey database_id table_id index_id)
          { index_metric with index_access_ := index_metric.index_access_.IncrementDeletes delete_count } }

/-- `BackendStatsContext::IncrementTxnCommitted` (lines 180-184). -/
def BackendStatsContext.IncrementTxnCommitted (self : BackendStatsContext TableKey IndexKey)
    (database_id : Nat) : Outcome (BackendStatsContext TableKey IndexKey) :=
  let got := self.GetDatabaseMetric database_id
  -- PL_ASSERT(database_metric != nullptr);
  match got.1 with
  | none => .assertion_failed got.2
  | some database_metric =>
    .returned { got.2 with
      database_metrics_ :=
        assign got.2.database_metrics_ database_id database_metric.IncrementTxnCommitted }

/-- `BackendStatsContext::IncrementTxnAborted` (lines 186-190). -/
def BackendStatsContext.IncrementTxnAborted (self : BackendStatsContext TableKey IndexKey)
    (database_id : Nat) : Outcome (BackendStatsContext TableKey IndexKey) :=
  let got := self.GetDatabaseMetric database_id
  -- PL_ASSERT(database_metric != nullptr);
  match got.1 with
  | none => .assertion_failed got.2
  | some database_metric =>
    .returned { got.2 with
      database_metrics_ :=
        assign got.2.database_metrics_ database_id database_metric.IncrementTxnAborted }

/-- Body of the first loop of `Aggregate` (line 219):
`GetDatabaseMetric(database_item.first)->Aggregate(*database_item.second)`.
`none` stands for the dereference of a null pointer. -/
def BackendStatsContext.AggregateDatabaseItem
    (self : BackendStatsContext TableKey IndexKey) (database_item : Nat × DatabaseMetric) :
    Option (BackendStatsContext TableKey IndexKey) :=
  let got := self.GetDatabaseMetric database_item.1
  match got.1 with
  | none => none
  | some m =>
    some { got.2 with
      database_metrics_ :=
        assign got.2.database_metrics_ database_item.1 (m.Aggregate database_item.2) }

/-- Body of the second loop of `Aggregate` (lines 232-234).  `none` stands for the
dereference of a null pointer. -/
def BackendStatsContext.AggregateTableItem (TableGetKey : Nat → Nat → TableKey)
    (self : BackendStatsContext TableKey IndexKey) (table_item : TableKey × TableMetric) :
    Option (BackendStatsContext TableKey IndexKey) :=
  let got := self.GetTableMetric TableGetKey table_item.2.GetDatabaseId
    table_item.2.GetTableId
  match got.1 with
  | none => none
  | some m =>
    some { got.2 with
      table_metrics_ :=
        assign got.2.table_metrics_
          (TableGetKey table_item.2.GetDatabaseId table_item.2.GetTableId)
          (m.Aggregate table_item.2) }

/-- Body of the third loop of `Aggregate` (lines 247-249).  `none` stands for the
dereference of a null pointer. -/
def BackendStatsContext.AggregateIndexItem (IndexGetKey : Nat → Nat → Nat → IndexKey)
    (self : BackendStatsContext TableKey IndexKey) (index_item : IndexKey × IndexMetric) :
    Option (BackendStatsContext TableKey IndexKey) :=
  let got := self.GetIndexMetric IndexGetKey index_item.2.GetDatabaseId
    index_item.2.GetTableId index_item.2.GetIndexId
  match got.1 with
  | none => none
  | some m =>
    some { got.2 with
      index_metrics_ :=
        assign got.2.index_metrics_
          (IndexGetKey index_item.2.GetDatabaseId index_item.2.GetTableId
            index_item.2.GetIndexId)
          (m.Aggregate index_item.2) }

/-- `BackendStatsContext::Aggregate` (lines 206-251) on a source that is another object
than the target: the target and the source after the call, or `none` if a null pointer
is dereferenced.  The loops run over the entries of the source maps and only read
them. -/
def BackendStatsContext.Aggregate (TableGetKey : Nat → Nat → TableKey)
    (IndexGetKey : Nat → Nat → Nat → IndexKey)
    (self source : BackendStatsContext TableKey IndexKey) :
    Option (BackendStatsContext TableKey IndexKey × BackendStatsContext TableKey IndexKey) :=
  -- for (auto& database_item : source.database_metrics_)
  match source.database_metrics_.foldlM
      (fun t database_item => t.AggregateDatabaseItem database_item) self with
  | none => none
  | some t1 =>
    -- for (auto& table_item : source.table_metrics_)
    match source.table_metrics_.foldlM
        (fun t table_item => t.AggregateTableItem TableGetKey table_item) t1 with
    | none => none
    | some t2 =>
      -- for (auto& index_item : source.index_metrics_)
      match source.index_metrics_.foldlM
          (fun t index_item => t.AggregateIndexItem IndexGetKey index_item) t2 with
      | none => none
      | some t3 => some (t3, source)

/-- Representation invariant of a stats context: in each map a key occurs once, and every
table and index metric is stored under the key of its own ids, as `GetTableMetric` and
`GetIndexMetric` store it. -/
def BackendStatsContext.WellFormed (TableGetKey : Nat → Nat → TableKey)
    (IndexGetKey : Nat → Nat → Nat → IndexKey)
    (self : BackendStatsContext TableKey IndexKey) : Prop :=
  (keys self.database_metrics_).Nodup
  ∧ (keys self.table_metrics_).Nodup
  ∧ (keys self.index_metrics_).Nodup
  ∧ (∀ e ∈ self.table_metrics_, e.1 = TableGetKey e.2.GetDatabaseId e.2.GetTableId)
  ∧ (∀ e ∈ self.index_metrics_,
      e.1 = IndexGetKey e.2.GetDatabaseId e.2.GetTableId e.2.GetIndexId)

end stats

namespace stats

/-- Sample target context, table keys being pairs and index keys triples of ids: database 1
with 3 committed and 2 aborted transactions, and table 10 of database 1. -/
def sampleTarget : BackendStatsContext (Nat × Nat) (Nat × Nat × Nat) :=
  ⟨[(1, ⟨1, 3, 2⟩)], [((1, 10), ⟨1, 10, ⟨1, 1, 1, 1⟩⟩)], []⟩

/-- Sample source context: databases 1 and 2, tables 10 of database 1 and 20 of database 2,
and index 100 of table 10. -/
def sampleSource : BackendStatsContext (Nat × Nat) (Nat × Nat × Nat) :=
  ⟨[(1, ⟨1, 1, 1⟩), (2, ⟨2, 4, 0⟩)],
    [((1, 10), ⟨1, 10, ⟨2, 0, 0, 0⟩⟩), ((2, 20), ⟨2, 20, ⟨0, 5, 0, 0⟩⟩)],
    [((1, 10, 100), ⟨1, 10, 100, ⟨7, 0, 0, 0⟩⟩)]⟩

end stats

/-! ## Theorems -/

namespace logging

open LogRecordType

/-- C1: `Log(r)` leaves the local queue equal to the previous queue with `r` appended
as its last element; the length grows by exactly one and every record already queued
stays at its position. -/
theorem Log_appends_record (Serialize : LogRecord → List Nat → List Nat)
    (s : WriteAheadBackendLogger) (r : LogRecord) :
    (s.Log Serialize r).state.local_queue = s.local_queue ++ [r]
    ∧ (s.Log Serialize r).state.local_queue.length = s.local_queue.length + 1
    ∧ (∀ i, i < s.local_queue.length →
        (s.Log Serialize r).state.local_queue[i]? = s.local_queue[i]?)
    ∧ (s.Log Serialize r).state.local_queue[s.local_queue.length]? = some r := by
  have h : (s.Log Serialize r).state.local_queue = s.local_queue ++ [r] := by
    unfold WriteAheadBackendLogger.Log
    dsimp only
    split_ifs <;> rfl
  rw [h]
  refine ⟨rfl, by simp, ?_, by simp⟩
  intro i hi
  exact List.getElem?_append_left hi

/-- C2: after logging a COMMIT record whose id `c` is strictly greater than the current
`highest_logged_commit_id`, the call returns and `GetHighestLoggedCommitId()` yields
exactly `c`; `GetHighestLoggedCommitId()` leaves the logger (queue and stored value)
as it was. -/
theorem Log_commit_sets_highest (Serialize : LogRecord → List Nat → List Nat)
    (s : WriteAheadBackendLogger) (r : LogRecord)
    (hty : r.GetType = LOGRECORD_TYPE_TRANSACTION_COMMIT)
    (hgt : s.highest_logged_commit_id < r.GetTransactionId) :
    ∃ s1, s.Log Serialize r = .returned s1
      ∧ s1.GetHighestLoggedCommitId.1 = r.GetTransactionId
      ∧ s1.GetHighestLoggedCommitId.2 = s1
      ∧ s1.GetHighestLoggedCommitId.2.local_queue = s1.local_queue
      ∧ s1.GetHighestLoggedCommitId.2.highest_logged_commit_id
          = s1.highest_logged_commit_id
      ∧ ∀ t : WriteAheadBackendLogger, t.GetHighestLoggedCommitId.2 = t := by
  refine ⟨⟨Serialize r s.output_buffer, s.local_queue ++ [r], r.GetTransactionId⟩,
    ?_, rfl, rfl, rfl, rfl, fun _ => rfl⟩
  unfold WriteAheadBackendLogger.Log
  dsimp only
  rw [if_pos hty, if_pos hgt]

/-- Witness for C2: a logger at commit id 4 logging the COMMIT record of id 7. -/
theorem Log_commit_sets_highest_witness :
    ∃ s1, (WriteAheadBackendLogger.mk [] [] 4).Log (fun _ b => b)
        (.TransactionRecord LOGRECORD_TYPE_TRANSACTION_COMMIT 7) = .returned s1
      ∧ s1.GetHighestLoggedCommitId.1 = 7
      ∧ s1.GetHighestLoggedCommitId.2 = s1
      ∧ s1.GetHighestLoggedCommitId.2.local_queue = s1.local_queue
      ∧ s1.GetHighestLoggedCommitId.2.highest_logged_commit_id
          = s1.highest_logged_commit_id
      ∧ ∀ t : WriteAheadBackendLogger, t.GetHighestLoggedCommitId.2 = t :=
  Log_commit_sets_highest (fun _ b => b) (WriteAheadBackendLogger.mk [] [] 4)
    (.TransactionRecord LOGRECORD_TYPE_TRANSACTION_COMMIT 7) rfl (by decide)

/-- C3: logging a record whose type is not COMMIT returns and leaves
`highest_logged_commit_id` unchanged, whatever id the record carries. -/
theorem Log_non_commit_keeps_highest (Serialize : LogRecord → List Nat → List Nat)
    (s : WriteAheadBackendLogger) (r : LogRecord)
    (hty : r.GetType ≠ LOGRECORD_TYPE_TRANSACTION_COMMIT) :
    (s.Log Serialize r).ok = true
    ∧ (s.Log Serialize r).state.highest_logged_commit_id
        = s.highest_logged_commit_id := by
  unfold WriteAheadBackendLogger.Log
  dsimp only
  rw [if_neg hty]
  exact ⟨rfl, rfl⟩

/-- Witness for C3: an ABORT record of id 99 logged at commit id 4. -/
theorem Log_non_commit_keeps_highest_witness :
    ((WriteAheadBackendLogger.mk [] [] 4).Log (fun _ b => b)
        (.TransactionRecord LOGRECORD_TYPE_TRANSACTION_ABORT 99)).ok = true
    ∧ ((WriteAheadBackendLogger.mk [] [] 4).Log (fun _ b => b)
        (.TransactionRecord LOGRECORD_TYPE_TRANSACTION_ABORT 99)).state.highest_logged_commit_id
        = 4 :=
  Log_non_commit_keeps_highest (fun _ b => b) (WriteAheadBackendLogger.mk [] [] 4)
    (.TransactionRecord LOGRECORD_TYPE_TRANSACTION_ABORT 99) (by decide)

/-- C4: `Log` returns exactly when the record is not a COMMIT record or its id is
strictly greater than `highest_logged_commit_id`: for a COMMIT record the call returns
if and only if the id is strictly greater, a COMMIT record with an equal or lower id
stops at the assertion, and a record of any other type never does. -/
theorem Log_assertion_iff (Serialize : LogRecord → List Nat → List Nat)
    (s : WriteAheadBackendLogger) (r : LogRecord) :
    (r.GetType = LOGRECORD_TYPE_TRANSACTION_COMMIT →
        ((s.Log Serialize r).ok = true ↔
          s.highest_logged_commit_id < r.GetTransactionId))
    ∧ (r.GetType = LOGRECORD_TYPE_TRANSACTION_COMMIT →
        r.GetTransactionId ≤ s.highest_logged_commit_id →
        ∃ s1, s.Log Serialize r = .assertion_failed s1)
    ∧ (r.GetType ≠ LOGRECORD_TYPE_TRANSACTION_COMMIT →
        ∃ s1, s.Log Serialize r = .returned s1) := by
  refine ⟨?_, ?_, ?_⟩
  · intro hty
    unfold WriteAheadBackendLogger.Log
    dsimp only
    rw [if_pos hty]
    by_cases hgt : s.highest_logged_commit_id < r.GetTransactionId
    · rw [if_pos hgt]; simp [Outcome.ok, hgt]
    · rw [if_neg hgt]; simp [Outcome.ok, hgt]
  · intro hty hle
    unfold WriteAheadBackendLogger.Log
    dsimp only
    rw [if_pos hty, if_neg (Nat.not_lt.mpr hle)]
    exact ⟨_, rfl⟩
  · intro hty
    unfold WriteAheadBackendLogger.Log
    dsimp only
    rw [if_neg hty]
    exact ⟨_, rfl⟩

/-! ### Sequences of `Log` calls -/

theorem commitIds_nil : commitIds [] = [] := rfl

theorem commitIds_append (xs ys : List LogRecord) :
    commitIds (xs ++ ys) = commitIds xs ++ commitIds ys := by
  simp [commitIds]

theorem commitIds_cons_commit (r : LogRecord) (rs : List LogRecord)
    (h : r.GetType = LOGRECORD_TYPE_TRANSACTION_COMMIT) :
    commitIds (r :: rs) = r.GetTransactionId :: commitIds rs := by
  simp [commitIds, h]

theorem commitIds_cons_other (r : LogRecord) (rs : List LogRecord)
    (h : r.GetType ≠ LOGRECORD_TYPE_TRANSACTION_COMMIT) :
    commitIds (r :: rs) = commitIds rs := by
  simp [commitIds, h]

/-- One `Log` call never lowers `highest_logged_commit_id`, whether it returns or
stops at the assertion. -/
theorem Log_highest_mono (Serialize : LogRecord → List Nat → List Nat)
    (s : WriteAheadBackendLogger) (r : LogRecord) :
    s.highest_logged_commit_id ≤ (s.Log Serialize r).state.highest_logged_commit_id := by
  unfold WriteAheadBackendLogger.Log
  dsimp only
  split_ifs with h1 h2
  · exact Nat.le_of_lt h2
  · exact Nat.le_refl _
  · exact Nat.le_refl _

/-- A sequence of calls extended by one more call. -/
theorem LogAll_snoc (Serialize : LogRecord → List Nat → List Nat)
    (xs : List LogRecord) (r : LogRecord) (s : WriteAheadBackendLogger) :
    WriteAheadBackendLogger.LogAll Serialize s (xs ++ [r]) =
      match WriteAheadBackendLogger.LogAll Serialize s xs with
      | .returned s1 => s1.Log Serialize r
      | .assertion_failed s1 => .assertion_failed s1 := by
  induction xs generalizing s with
  | nil =>
    simp only [List.nil_append, WriteAheadBackendLogger.LogAll]
    cases s.Log Serialize r <;> rfl
  | cons x xs ih =>
    simp only [List.cons_append, WriteAheadBackendLogger.LogAll]
    cases s.Log Serialize x with
    | returned s1 => exact ih s1
    | assertion_failed s1 => rfl

/-- From one call of a sequence to the next, `highest_logged_commit_id` does not
decrease. -/
theorem LogAll_step_mono (Serialize : LogRecord → List Nat → List Nat)
    (s : WriteAheadBackendLogger) (rs : List LogRecord) (k : Nat) :
    (WriteAheadBackendLogger.LogAll Serialize s (rs.take k)).state.highest_logged_commit_id
      ≤ (WriteAheadBackendLogger.LogAll Serialize s
          (rs.take (k + 1))).state.highest_logged_commit_id := by
  by_cases hk : k < rs.length
  · have ht : rs.take (k + 1) = rs.take k ++ [rs[k]] := by
      rw [List.take_succ, List.getElem?_eq_getElem hk]
      rfl
    rw [ht, LogAll_snoc]
    cases WriteAheadBackendLogger.LogAll Serialize s (rs.take k) with
    | returned s1 => exact Log_highest_mono Serialize s1 _
    | assertion_failed s1 => exact Nat.le_refl _
  · have hk1 : rs.length ≤ k := Nat.le_of_not_lt hk
    rw [List.take_of_length_le hk1, List.take_of_length_le (Nat.le_succ_of_le hk1)]

/-- What a sequence of calls that all return does to the queue and to
`highest_logged_commit_id`. -/
theorem LogAll_returned (Serialize : LogRecord → List Nat → List Nat)
    (rs : List LogRecord) (s s1 : WriteAheadBackendLogger)
    (hrun : WriteAheadBackendLogger.LogAll Serialize s rs = .returned s1) :
    s1.local_queue = s.local_queue ++ rs
    ∧ (commitIds rs).Pairwise (· < ·)
    ∧ (∀ c ∈ commitIds rs, s.highest_logged_commit_id < c)
    ∧ s.highest_logged_commit_id ≤ s1.highest_logged_commit_id
    ∧ (commitIds rs = [] → s1.highest_logged_commit_id = s.highest_logged_commit_id)
    ∧ (commitIds rs ≠ [] → s1.highest_logged_commit_id ∈ commitIds rs
        ∧ ∀ c ∈ commitIds rs, c ≤ s1.highest_logged_commit_id) := by
  induction rs generalizing s with
  | nil =>
    simp only [WriteAheadBackendLogger.LogAll, Outcome.returned.injEq] at hrun
    subst hrun
    simp [commitIds_nil]
  | cons r rs ih =>
    simp only [WriteAheadBackendLogger.LogAll] at hrun
    by_cases hty : r.GetType = LOGRECORD_TYPE_TRANSACTION_COMMIT
    · by_cases hgt : s.highest_logged_commit_id < r.GetTransactionId
      · have hlog : s.Log Serialize r = .returned
            ⟨Serialize r s.output_buffer, s.local_queue ++ [r], r.GetTransactionId⟩ := by
          unfold WriteAheadBackendLogger.Log
          dsimp only
          rw [if_pos hty, if_pos hgt]
        rw [hlog] at hrun
        obtain ⟨hq, hpw, hlow, hle, hnil, hne⟩ := ih _ hrun
        dsimp only at hq hlow hle hnil hne
        rw [commitIds_cons_commit r rs hty]
        refine ⟨by rw [hq]; simp, ?_, ?_, ?_, ?_, ?_⟩
        · exact List.pairwise_cons.mpr ⟨hlow, hpw⟩
        · intro c hc
          rcases List.mem_cons.mp hc with h | h
          · rw [h]; exact hgt
          · exact Nat.lt_trans hgt (hlow c h)
        · exact Nat.le_trans (Nat.le_of_lt hgt) hle
        · intro h; exact absurd h (List.cons_ne_nil _ _)
        · intro _
          by_cases hrs : commitIds rs = []
          · rw [hrs, hnil hrs]
            simp
          · obtain ⟨hmem, hmax⟩ := hne hrs
            refine ⟨List.mem_cons_of_mem _ hmem, ?_⟩
            intro c hc
            rcases List.mem_cons.mp hc with h | h
            · rw [h]; exact hle
            · exact hmax c h
      · have hlog : s.Log Serialize r = .assertion_failed
            ⟨Serialize r s.output_buffer, s.local_queue ++ [r],
              s.highest_logged_commit_id⟩ := by
          unfold WriteAheadBackendLogger.Log
          dsimp only
          rw [if_pos hty, if_neg hgt]
        rw [hlog] at hrun
        cases hrun
    · have hlog : s.Log Serialize r = .returned
          ⟨Serialize r s.output_buffer, s.local_queue ++ [r],
            s.highest_logged_commit_id⟩ := by
        unfold WriteAheadBackendLogger.Log
        dsimp only
        rw [if_neg hty]
      rw [hlog] at hrun
      obtain ⟨hq, hpw, hlow, hle, hnil, hne⟩ := ih _ hrun
      dsimp only at hq hlow hle hnil hne
      rw [commitIds_cons_other r rs hty]
      exact ⟨by rw [hq]; simp, hpw, hlow, hle, hnil, hne⟩

/-- C5: for a sequence of `Log` calls none of which stops at the assertion,
`highest_logged_commit_id` never decreases from one call to the next; the queue is the
old queue followed by the logged records; the ids of the COMMIT records logged are
strictly increasing in queue order and all above the starting value, so that the ids
of all COMMIT records in the queue are strictly increasing whenever those queued
before were strictly increasing and at most the starting value (in particular when
the queue was empty); and at the end `highest_logged_commit_id` is the maximum id
among the COMMIT records logged, or the starting value if none was logged. -/
theorem LogAll_commit_ids_increasing (Serialize : LogRecord → List Nat → List Nat)
    (s s1 : WriteAheadBackendLogger) (rs : List LogRecord)
    (hrun : WriteAheadBackendLogger.LogAll Serialize s rs = .returned s1) :
    (∀ k, (WriteAheadBackendLogger.LogAll Serialize s
            (rs.take k)).state.highest_logged_commit_id
          ≤ (WriteAheadBackendLogger.LogAll Serialize s
            (rs.take (k + 1))).state.highest_logged_commit_id)
    ∧ s1.local_queue = s.local_queue ++ rs
    ∧ (commitIds rs).Pairwise (· < ·)
    ∧ (∀ c ∈ commitIds rs, s.highest_logged_commit_id < c)
    ∧ ((commitIds s.local_queue).Pairwise (· < ·) →
        (∀ c ∈ commitIds s.local_queue, c ≤ s.highest_logged_commit_id) →
        (commitIds s1.local_queue).Pairwise (· < ·)
        ∧ ∀ c ∈ commitIds s1.local_queue, c ≤ s1.highest_logged_commit_id)
    ∧ (s.local_queue = [] → (commitIds s1.local_queue).Pairwise (· < ·))
    ∧ (commitIds rs = [] → s1.highest_logged_commit_id = s.highest_logged_commit_id)
    ∧ (commitIds rs ≠ [] → s1.highest_logged_commit_id ∈ commitIds rs
        ∧ ∀ c ∈ commitIds rs, c ≤ s1.highest_logged_commit_id) := by
  obtain ⟨hq, hpw, hlow, hle, hnil, hne⟩ := LogAll_returned Serialize rs s s1 hrun
  refine ⟨LogAll_step_mono Serialize s rs, hq, hpw, hlow, ?_, ?_, hnil, hne⟩
  · intro hold hbound
    rw [hq, commitIds_append]
    refine ⟨List.pairwise_append.mpr ⟨hold, hpw, ?_⟩, ?_⟩
    · intro a ha b hb
      exact Nat.lt_of_le_of_lt (hbound a ha) (hlow b hb)
    · intro c hc
      rcases List.mem_append.mp hc with h | h
      · exact Nat.le_trans (hbound c h) hle
      · by_cases hrs : commitIds rs = []
        · rw [hrs] at h; cases h
        · exact (hne hrs).2 c h
  · intro hempty
    rw [hq, hempty, List.nil_append]
    exact hpw

/-- Witness for C5: a fresh logger (empty queue, commit id 0) logging BEGIN 3,
COMMIT 3, BEGIN 5, ABORT 5, COMMIT 8. -/
theorem LogAll_commit_ids_increasing_witness :
    (commitIds ([] ++ [LogRecord.TransactionRecord LOGRECORD_TYPE_TRANSACTION_BEGIN 3,
        .TransactionRecord LOGRECORD_TYPE_TRANSACTION_COMMIT 3,
        .TransactionRecord LOGRECORD_TYPE_TRANSACTION_BEGIN 5,
        .TransactionRecord LOGRECORD_TYPE_TRANSACTION_ABORT 5,
        .TransactionRecord LOGRECORD_TYPE_TRANSACTION_COMMIT 8])).Pairwise (· < ·)
    ∧ (8 : Nat) ∈ commitIds [LogRecord.TransactionRecord LOGRECORD_TYPE_TRANSACTION_BEGIN 3,
        .TransactionRecord LOGRECORD_TYPE_TRANSACTION_COMMIT 3,
        .TransactionRecord LOGRECORD_TYPE_TRANSACTION_BEGIN 5,
        .TransactionRecord LOGRECORD_TYPE_TRANSACTION_ABORT 5,
        .TransactionRecord LOGRECORD_TYPE_TRANSACTION_COMMIT 8] := by
  have h := LogAll_commit_ids_increasing (fun _ b => b)
    (WriteAheadBackendLogger.mk [] [] 0)
    (WriteAheadBackendLogger.mk []
      ([] ++ [LogRecord.TransactionRecord LOGRECORD_TYPE_TRANSACTION_BEGIN 3,
        .TransactionRecord LOGRECORD_TYPE_TRANSACTION_COMMIT 3,
        .TransactionRecord LOGRECORD_TYPE_TRANSACTION_BEGIN 5,
        .TransactionRecord LOGRECORD_TYPE_TRANSACTION_ABORT 5,
        .TransactionRecord LOGRECORD_TYPE_TRANSACTION_COMMIT 8]) 8)
    [LogRecord.TransactionRecord LOGRECORD_TYPE_TRANSACTION_BEGIN 3,
        .TransactionRecord LOGRECORD_TYPE_TRANSACTION_COMMIT 3,
        .TransactionRecord LOGRECORD_TYPE_TRANSACTION_BEGIN 5,
        .TransactionRecord LOGRECORD_TYPE_TRANSACTION_ABORT 5,
        .TransactionRecord LOGRECORD_TYPE_TRANSACTION_COMMIT 8] (by decide)
  exact ⟨h.2.2.2.2.2.1 rfl, (h.2.2.2.2.2.2.2 (by decide)).1⟩

/-! ### `GetTupleRecord` -/

/-- C6: for the three tuple record types `GetTupleRecord` builds a record of the
corresponding write-ahead type (TUPLE_INSERT to WAL_TUPLE_INSERT, TUPLE_DELETE to
WAL_TUPLE_DELETE, TUPLE_UPDATE to WAL_TUPLE_UPDATE), and the mapping is injective:
two built records of the same type come from the same requested type. -/
theorem GetTupleRecord_type_mapping (txn_id table_oid db_oid : Nat)
    (insert_location delete_location : ItemPointer) (data : Nat) :
    (WriteAheadBackendLogger.GetTupleRecord LOGRECORD_TYPE_TUPLE_INSERT txn_id table_oid
        db_oid insert_location delete_location data).map LogRecord.GetType
      = some LOGRECORD_TYPE_WAL_TUPLE_INSERT
    ∧ (WriteAheadBackendLogger.GetTupleRecord LOGRECORD_TYPE_TUPLE_DELETE txn_id table_oid
        db_oid insert_location delete_location data).map LogRecord.GetType
      = some LOGRECORD_TYPE_WAL_TUPLE_DELETE
    ∧ (WriteAheadBackendLogger.GetTupleRecord LOGRECORD_TYPE_TUPLE_UPDATE txn_id table_oid
        db_oid insert_location delete_location data).map LogRecord.GetType
      = some LOGRECORD_TYPE_WAL_TUPLE_UPDATE
    ∧ (∀ (t1 t2 : LogRecordType) (txn2 table2 db2 : Nat) (ins2 del2 : ItemPointer)
        (data2 : Nat) (r1 r2 : LogRecord),
        WriteAheadBackendLogger.GetTupleRecord t1 txn_id table_oid db_oid insert_location
          delete_location data = some r1 →
        WriteAheadBackendLogger.GetTupleRecord t2 txn2 table2 db2 ins2 del2 data2
          = some r2 →
        r1.GetType = r2.GetType → t1 = t2) := by
  refine ⟨rfl, rfl, rfl, ?_⟩
  intro t1 t2 txn2 table2 db2 ins2 del2 data2 r1 r2 h1 h2 h
  cases t1 <;> cases t2 <;>
    simp [WriteAheadBackendLogger.GetTupleRecord] at h1 h2 <;>
    (subst h1; subst h2; first | rfl | simp [LogRecord.GetType] at h)

/-- C7: for each of the three tuple record types the record returned by
`GetTupleRecord` is a tuple record that carries the txn id, the table oid, the
database oid, the insert location, the delete location and the data payload of the
call, each in its own field. -/
theorem GetTupleRecord_fields (t : LogRecordType) (txn_id table_oid db_oid : Nat)
    (insert_location delete_location : ItemPointer) (data : Nat)
    (ht : t = LOGRECORD_TYPE_TUPLE_INSERT ∨ t = LOGRECORD_TYPE_TUPLE_DELETE
      ∨ t = LOGRECORD_TYPE_TUPLE_UPDATE) :
    ∃ r : TupleRecord,
      WriteAheadBackendLogger.GetTupleRecord t txn_id table_oid db_oid insert_location
        delete_location data = some (.Tuple r)
      ∧ (LogRecord.Tuple r).GetTransactionId = txn_id
      ∧ r.table_oid = table_oid
      ∧ r.db_oid = db_oid
      ∧ r.insert_location = insert_location
      ∧ r.delete_location = delete_location
      ∧ r.data = data := by
  rcases ht with h | h | h <;> subst h <;>
    exact ⟨_, rfl, rfl, rfl, rfl, rfl, rfl, rfl⟩

/-- Witness for C7: an update with pairwise different arguments (txn 7, table 11,
database 22, insert location (3, 4), delete location (5, 6), payload 99). -/
theorem GetTupleRecord_fields_witness :
    ∃ r : TupleRecord,
      WriteAheadBackendLogger.GetTupleRecord LOGRECORD_TYPE_TUPLE_UPDATE 7 11 22 ⟨3, 4⟩
        ⟨5, 6⟩ 99 = some (.Tuple r)
      ∧ (LogRecord.Tuple r).GetTransactionId = 7
      ∧ r.table_oid = 11
      ∧ r.db_oid = 22
      ∧ r.insert_location = ⟨3, 4⟩
      ∧ r.delete_location = ⟨5, 6⟩
      ∧ r.data = 99 :=
  GetTupleRecord_fields LOGRECORD_TYPE_TUPLE_UPDATE 7 11 22 ⟨3, 4⟩ ⟨5, 6⟩ 99
    (Or.inr (Or.inr rfl))

end logging

namespace planner

/-! ### `ProjectInfo::Evaluate` -/

/-- A column that is no destination of a sequence of writes keeps its value. -/
theorem foldl_SetValue_of_not_mem {Value : Type} (pool : Option VarlenPool)
    (ws : List (Nat × Value)) (dest : Tuple Value) (c : Nat)
    (hc : c ∉ ws.map Prod.fst) :
    (ws.foldl (fun d w => d.SetValue w.1 w.2 pool) dest).GetValue c = dest.GetValue c := by
  induction ws generalizing dest with
  | nil => rfl
  | cons w ws ih =>
    simp only [List.map_cons, List.mem_cons, not_or] at hc
    rw [List.foldl_cons, ih _ hc.2]
    simp [Tuple.SetValue, hc.1]

/-- After a sequence of writes with pairwise distinct destinations every written column
holds the value written to it. -/
theorem foldl_SetValue_of_mem {Value : Type} (pool : Option VarlenPool)
    (ws : List (Nat × Value)) (dest : Tuple Value) (c : Nat) (v : Value)
    (hnd : (ws.map Prod.fst).Nodup) (hmem : (c, v) ∈ ws) :
    (ws.foldl (fun d w => d.SetValue w.1 w.2 pool) dest).GetValue c = v := by
  induction ws generalizing dest with
  | nil => cases hmem
  | cons w ws ih =>
    simp only [List.map_cons, List.nodup_cons] at hnd
    rw [List.foldl_cons]
    rcases List.mem_cons.mp hmem with h | h
    · subst h
      rw [foldl_SetValue_of_not_mem pool ws _ _ hnd.1]
      simp [Tuple.SetValue]
    · exact ih _ hnd.2 h

/-- Writes performed by `Evaluate`, in order: those of the target list, then those of
the direct map list. -/
theorem Evaluate_eq_foldl {Value : Type} (p : ProjectInfo Value) (dest : Tuple Value)
    (tuple1 tuple2 : AbstractTuple Value) (econtext : Option ExecutorContext) :
    p.Evaluate dest tuple1 tuple2 econtext =
      (true, List.foldl
        (fun d w => d.SetValue w.1 w.2 (econtext.map ExecutorContext.GetExecutorContextPool))
        dest
        (p.target_list_.map (fun t => (t.1, t.2.Evaluate tuple1 tuple2 econtext))
          ++ p.direct_map_list_.map (fun dm =>
              (dm.1, if dm.2.1 = 0 then tuple1.GetValue dm.2.2
                     else tuple2.GetValue dm.2.2)))) := by
  unfold ProjectInfo.Evaluate
  rw [List.foldl_append, List.foldl_map, List.foldl_map]
  cases econtext <;> rfl

/-- C8: when the destination column ids of the target list and the direct map list are
pairwise distinct, `Evaluate` returns true and leaves, for every target entry
`(d, e)`, the value of `e` on `(tuple1, tuple2)` in column `d`, and for every direct
map entry `(d, (i, s))`, column `s` of `tuple1` when `i` is 0 and column `s` of
`tuple2` for every other `i` in column `d`. -/
theorem Evaluate_distinct_destinations {Value : Type} (p : ProjectInfo Value)
    (dest : Tuple Value) (tuple1 tuple2 : AbstractTuple Value)
    (econtext : Option ExecutorContext)
    (hnd : (p.target_list_.map Prod.fst ++ p.direct_map_list_.map Prod.fst).Nodup) :
    (p.Evaluate dest tuple1 tuple2 econtext).1 = true
    ∧ (∀ d e, (d, e) ∈ p.target_list_ →
        (p.Evaluate dest tuple1 tuple2 econtext).2.GetValue d
          = e.Evaluate tuple1 tuple2 econtext)
    ∧ (∀ d i s, (d, (i, s)) ∈ p.direct_map_list_ →
        (p.Evaluate dest tuple1 tuple2 econtext).2.GetValue d
          = if i = 0 then tuple1.GetValue s else tuple2.GetValue s) := by
  rw [Evaluate_eq_foldl]
  have hnd2 : ((p.target_list_.map (fun t => (t.1, t.2.Evaluate tuple1 tuple2 econtext))
      ++ p.direct_map_list_.map (fun dm =>
          (dm.1, if dm.2.1 = 0 then tuple1.GetValue dm.2.2
                 else tuple2.GetValue dm.2.2))).map Prod.fst).Nodup := by
    simpa [List.map_append, List.map_map, Function.comp_def] using hnd
  refine ⟨rfl, ?_, ?_⟩
  · intro d e hmem
    apply foldl_SetValue_of_mem _ _ _ _ _ hnd2
    apply List.mem_append_left
    exact List.mem_map.mpr ⟨(d, e), hmem, rfl⟩
  · intro d i s hmem
    apply foldl_SetValue_of_mem _ _ _ _ _ hnd2
    apply List.mem_append_right
    exact List.mem_map.mpr ⟨(d, (i, s)), hmem, rfl⟩

/-- Witness for C8: target list `[(0, column 0 of tuple1 + column 0 of tuple2)]` and
direct map list `[(1, (0, 2)), (2, (1, 0))]` on the tuples `c + 10` and `c + 20`. -/
theorem Evaluate_distinct_destinations_witness :
    (ProjectInfo.Evaluate
        ⟨[(0, ⟨fun a b _ => a.GetValue 0 + b.GetValue 0⟩)], [(1, (0, 2)), (2, (1, 0))]⟩
        ⟨fun _ => 0⟩ ⟨fun c => c + 10⟩ ⟨fun c => c + 20⟩ none).2.GetValue 0 = 30
    ∧ (ProjectInfo.Evaluate
        ⟨[(0, ⟨fun a b _ => a.GetValue 0 + b.GetValue 0⟩)], [(1, (0, 2)), (2, (1, 0))]⟩
        ⟨fun _ => 0⟩ ⟨fun c => c + 10⟩ ⟨fun c => c + 20⟩ none).2.GetValue 1 = 12
    ∧ (ProjectInfo.Evaluate
        ⟨[(0, ⟨fun a b _ => a.GetValue 0 + b.GetValue 0⟩)], [(1, (0, 2)), (2, (1, 0))]⟩
        ⟨fun _ => 0⟩ ⟨fun c => c + 10⟩ ⟨fun c => c + 20⟩ none).2.GetValue 2 = 20 := by
  have h := Evaluate_distinct_destinations
    (⟨[(0, ⟨fun a b _ => a.GetValue 0 + b.GetValue 0⟩)], [(1, (0, 2)), (2, (1, 0))]⟩ :
      ProjectInfo Nat)
    ⟨fun _ => 0⟩ ⟨fun c => c + 10⟩ ⟨fun c => c + 20⟩ none (by decide)
  exact ⟨h.2.1 0 _ (List.Mem.head _), h.2.2 1 0 2 (List.Mem.head _),
    h.2.2 2 1 0 (List.Mem.tail _ (List.Mem.head _))⟩

/-- C9: `Evaluate` returns true and changes only the columns that are a destination id of
the target list or of the direct map list; with both lists empty the destination is
unchanged. -/
theorem Evaluate_frame {Value : Type} (p : ProjectInfo Value) (dest : Tuple Value)
    (tuple1 tuple2 : AbstractTuple Value) (econtext : Option ExecutorContext) :
    (p.Evaluate dest tuple1 tuple2 econtext).1 = true
    ∧ (∀ c, c ∉ p.target_list_.map Prod.fst → c ∉ p.direct_map_list_.map Prod.fst →
        (p.Evaluate dest tuple1 tuple2 econtext).2.GetValue c = dest.GetValue c)
    ∧ (p.target_list_ = [] → p.direct_map_list_ = [] →
        p.Evaluate dest tuple1 tuple2 econtext = (true, dest)) := by
  refine ⟨rfl, ?_, ?_⟩
  · intro c h1 h2
    rw [Evaluate_eq_foldl]
    apply foldl_SetValue_of_not_mem
    simp only [List.map_append, List.map_map, List.mem_append, not_or]
    refine ⟨?_, ?_⟩
    · simpa [Function.comp_def] using h1
    · simpa [Function.comp_def] using h2
  · intro h1 h2
    unfold ProjectInfo.Evaluate
    rw [h1, h2]
    rfl

end planner

namespace logging

open LogRecordType

/-! ### `GetTupleRecord`: accepted record types -/

/-- C14: `GetTupleRecord` accepts exactly the three tuple record types.  For every other
record type (BEGIN, COMMIT, ABORT and the already translated WAL_TUPLE types among
them) the call reaches the `assert(false)` of the `default` branch and fails, and for
TUPLE_INSERT, TUPLE_DELETE and TUPLE_UPDATE it never reaches that branch and yields a
record. -/
theorem GetTupleRecord_accepts_exactly_tuple_types (t : LogRecordType)
    (txn_id table_oid db_oid : Nat) (insert_location delete_location : ItemPointer)
    (data : Nat) :
    (WriteAheadBackendLogger.GetTupleRecord t txn_id table_oid db_oid insert_location
        delete_location data = none
      ↔ (t ≠ LOGRECORD_TYPE_TUPLE_INSERT ∧ t ≠ LOGRECORD_TYPE_TUPLE_DELETE
          ∧ t ≠ LOGRECORD_TYPE_TUPLE_UPDATE))
    ∧ ((WriteAheadBackendLogger.GetTupleRecord t txn_id table_oid db_oid insert_location
        delete_location data).isSome = true
      ↔ (t = LOGRECORD_TYPE_TUPLE_INSERT ∨ t = LOGRECORD_TYPE_TUPLE_DELETE
          ∨ t = LOGRECORD_TYPE_TUPLE_UPDATE))
    ∧ WriteAheadBackendLogger.GetTupleRecord LOGRECORD_TYPE_TRANSACTION_BEGIN txn_id
        table_oid db_oid insert_location delete_location data = none
    ∧ WriteAheadBackendLogger.GetTupleRecord LOGRECORD_TYPE_TRANSACTION_COMMIT txn_id
        table_oid db_oid insert_location delete_location data = none
    ∧ WriteAheadBackendLogger.GetTupleRecord LOGRECORD_TYPE_TRANSACTION_ABORT txn_id
        table_oid db_oid insert_location delete_location data = none
    ∧ WriteAheadBackendLogger.GetTupleRecord LOGRECORD_TYPE_WAL_TUPLE_INSERT txn_id
        table_oid db_oid insert_location delete_location data = none
    ∧ WriteAheadBackendLogger.GetTupleRecord LOGRECORD_TYPE_WAL_TUPLE_DELETE txn_id
        table_oid db_oid insert_location delete_location data = none
    ∧ WriteAheadBackendLogger.GetTupleRecord LOGRECORD_TYPE_WAL_TUPLE_UPDATE txn_id
        table_oid db_oid insert_location delete_location data = none := by
  refine ⟨?_, ?_, rfl, rfl, rfl, rfl, rfl, rfl⟩
  · cases t <;> simp [WriteAheadBackendLogger.GetTupleRecord]
  · cases t <;> simp [WriteAheadBackendLogger.GetTupleRecord]

end logging

namespace planner

/-! ### `ProjectInfo::Evaluate`: repeated destination columns -/

/-- The last write to a column in a sequence of writes decides the value of the column. -/
theorem foldl_SetValue_last {Value : Type} (pool : Option VarlenPool)
    (pre post : List (Nat × Value)) (dest : Tuple Value) (c : Nat) (v : Value)
    (hpost : c ∉ post.map Prod.fst) :
    ((pre ++ (c, v) :: post).foldl (fun d w => d.SetValue w.1 w.2 pool) dest).GetValue c
      = v := by
  rw [List.foldl_append, List.foldl_cons, foldl_SetValue_of_not_mem pool post _ _ hpost]
  simp [Tuple.SetValue]

/-- C13: the direct map list runs after the target list and, within a list, later entries
run after earlier ones.  A destination column `d` of the direct map list ends with the
source value of the last direct map entry for `d`, whether or not the target list also
writes `d`; a destination column `d` that only the target list writes ends with the
value of the last target entry for `d`. -/
theorem Evaluate_last_write_wins {Value : Type} (p : ProjectInfo Value)
    (dest : Tuple Value) (tuple1 tuple2 : AbstractTuple Value)
    (econtext : Option ExecutorContext) :
    (∀ d i s pre post, p.direct_map_list_ = pre ++ (d, (i, s)) :: post →
        d ∉ post.map Prod.fst →
        (p.Evaluate dest tuple1 tuple2 econtext).2.GetValue d
          = if i = 0 then tuple1.GetValue s else tuple2.GetValue s)
    ∧ (∀ d e pre post, p.target_list_ = pre ++ (d, e) :: post →
        d ∉ post.map Prod.fst → d ∉ p.direct_map_list_.map Prod.fst →
        (p.Evaluate dest tuple1 tuple2 econtext).2.GetValue d
          = e.Evaluate tuple1 tuple2 econtext) := by
  refine ⟨?_, ?_⟩
  · intro d i s pre post hlist hpost
    rw [Evaluate_eq_foldl, hlist]
    simp only [List.map_append, List.map_cons, ← List.append_assoc]
    apply foldl_SetValue_last
    simpa [List.map_map, Function.comp_def] using hpost
  · intro d e pre post hlist hpost hdm
    rw [Evaluate_eq_foldl, hlist]
    simp only [List.map_append, List.map_cons, List.append_assoc, List.cons_append]
    apply foldl_SetValue_last
    simp only [List.map_append, List.map_map, List.mem_append, not_or]
    refine ⟨?_, ?_⟩
    · simpa [Function.comp_def] using hpost
    · simpa [Function.comp_def] using hdm

/-- Illustration of C13: column 0 is written by the target list (the constant 7) and by
the direct map list (column 2 of tuple1, which is 12), and column 1 is written twice by
the direct map list (column 0 of tuple1, then column 0 of tuple2). -/
theorem Evaluate_last_write_wins_example :
    (ProjectInfo.Evaluate
        ⟨[(0, ⟨fun _ _ _ => 7⟩)], [(0, (0, 2)), (1, (0, 0)), (1, (1, 0))]⟩
        ⟨fun _ => 0⟩ ⟨fun c => c + 10⟩ ⟨fun c => c + 20⟩ none).2.GetValue 0 = 12
    ∧ (ProjectInfo.Evaluate
        ⟨[(0, ⟨fun _ _ _ => 7⟩)], [(0, (0, 2)), (1, (0, 0)), (1, (1, 0))]⟩
        ⟨fun _ => 0⟩ ⟨fun c => c + 10⟩ ⟨fun c => c + 20⟩ none).2.GetValue 1 = 20 := by
  have h := Evaluate_last_write_wins
    (⟨[(0, ⟨fun _ _ _ => 7⟩)], [(0, (0, 2)), (1, (0, 0)), (1, (1, 0))]⟩ : ProjectInfo Nat)
    ⟨fun _ => 0⟩ ⟨fun c => c + 10⟩ ⟨fun c => c + 20⟩ none
  exact ⟨h.1 0 0 2 [] [(1, (0, 0)), (1, (1, 0))] rfl (by decide),
    h.1 1 1 0 [(0, (0, 2)), (1, (0, 0))] [] rfl (by decide)⟩

end planner

namespace mvcc

/-! ### Snapshot stability of the visibility rule -/

end mvcc

namespace stats

set_option linter.unusedSectionVars false

variable {TableKey IndexKey : Type} [DecidableEq TableKey] [DecidableEq IndexKey]

/-! ### Maps -/

theorem find_assign_same {K V : Type} [DecidableEq K] (m : List (K × V)) (k : K) (v : V) :
    find (assign m k v) k = some v := by
  induction m with
  | nil => simp [assign, find]
  | cons e m ih =>
    obtain ⟨k1, v1⟩ := e
    by_cases h : k1 = k
    · simp [assign, find, h]
    · simp [assign, find, h, ih]

theorem find_assign_ne {K V : Type} [DecidableEq K] (m : List (K × V)) (k k2 : K) (v : V)
    (hne : k2 ≠ k) : find (assign m k v) k2 = find m k2 := by
  induction m with
  | nil => simp [assign, find, Ne.symm hne]
  | cons e m ih =>
    obtain ⟨k1, v1⟩ := e
    by_cases h : k1 = k
    · subst h
      simp [assign, find, Ne.symm hne]
    · by_cases h2 : k1 = k2
      · subst h2
        simp [assign, find, h]
      · simp [assign, find, h, h2, ih]

theorem find_eq_none_iff {K V : Type} [DecidableEq K] (m : List (K × V)) (k : K) :
    find m k = none ↔ k ∉ keys m := by
  induction m with
  | nil => simp [find, keys]
  | cons e m ih =>
    obtain ⟨k1, v1⟩ := e
    by_cases h : k1 = k
    · simp [find, keys, h]
    · have ih2 : find m k = none ↔ k ∉ List.map Prod.fst m := ih
      simp [find, keys, h, Ne.symm h, ih2]

theorem assign_of_find_none {K V : Type} [DecidableEq K] (m : List (K × V)) (k : K) (v : V)
    (hnone : find m k = none) : assign m k v = m ++ [(k, v)] := by
  induction m with
  | nil => rfl
  | cons e m ih =>
    obtain ⟨k1, v1⟩ := e
    by_cases h : k1 = k
    · simp [find, h] at hnone
    · simp only [find, h, if_false] at hnone
      simp [assign, h, ih hnone]

theorem mem_keys_assign {K V : Type} [DecidableEq K] (m : List (K × V)) (k k2 : K) (v : V) :
    k2 ∈ keys (assign m k v) ↔ k2 = k ∨ k2 ∈ keys m := by
  induction m with
  | nil => simp [assign, keys]
  | cons e m ih =>
    obtain ⟨k1, v1⟩ := e
    have ih2 : k2 ∈ List.map Prod.fst (assign m k v) ↔ k2 = k ∨ k2 ∈ List.map Prod.fst m := ih
    by_cases h : k1 = k
    · subst h
      simp [assign, keys]
    · simp only [assign, h, if_false, keys, List.map_cons, List.mem_cons, ih2]
      tauto

theorem keys_assign_of_mem {K V : Type} [DecidableEq K] (m : List (K × V)) (k : K) (v : V)
    (hmem : k ∈ keys m) : keys (assign m k v) = keys m := by
  induction m with
  | nil => simp [keys] at hmem
  | cons e m ih =>
    obtain ⟨k1, v1⟩ := e
    by_cases h : k1 = k
    · simp [assign, keys, h]
    · have hm : k ∈ keys m := by
        simp only [keys, List.map_cons, List.mem_cons] at hmem
        rcases hmem with h2 | h2
        · exact absurd h2.symm h
        · exact h2
      have ih2 : List.map Prod.fst (assign m k v) = List.map Prod.fst m := ih hm
      simp [assign, keys, h, ih2]

theorem assign_assign {K V : Type} [DecidableEq K] (m : List (K × V)) (k : K) (v w : V) :
    assign (assign m k v) k w = assign m k w := by
  induction m with
  | nil => simp [assign]
  | cons e m ih =>
    obtain ⟨k1, v1⟩ := e
    by_cases h : k1 = k
    · simp [assign, h]
    · simp [assign, h, ih]

theorem find_of_mem_of_nodup {K V : Type} [DecidableEq K] (m : List (K × V)) (k : K) (v : V)
    (hnd : (keys m).Nodup) (hmem : (k, v) ∈ m) : find m k = some v := by
  induction m with
  | nil => cases hmem
  | cons e m ih =>
    obtain ⟨k1, v1⟩ := e
    simp only [keys, List.map_cons, List.nodup_cons] at hnd
    rcases List.mem_cons.mp hmem with h | h
    · injection h with h1 h2
      subst h1; subst h2
      simp [find]
    · have hk : k1 ≠ k := by
        intro hk
        apply hnd.1
        rw [hk]
        exact List.mem_map.mpr ⟨(k, v), h, rfl⟩
      simp only [find, hk, if_false]
      exact ih hnd.2 h

theorem mem_of_find_eq_some {K V : Type} [DecidableEq K] (m : List (K × V)) (k : K) (v : V)
    (hfind : find m k = some v) : (k, v) ∈ m := by
  induction m with
  | nil => simp [find] at hfind
  | cons e m ih =>
    obtain ⟨k1, v1⟩ := e
    by_cases h : k1 = k
    · simp only [find, h, if_true, Option.some.injEq] at hfind
      subst h; subst hfind
      exact List.mem_cons_self _ _
    · simp only [find, h, if_false] at hfind
      exact List.mem_cons_of_mem _ (ih hfind)

/-! ### The three accessors -/

theorem GetDatabaseMetric_of_some (s : BackendStatsContext TableKey IndexKey)
    (database_id : Nat) (m : DatabaseMetric)
    (h : find s.database_metrics_ database_id = some m) :
    s.GetDatabaseMetric database_id = (some m, s) := by
  simp [BackendStatsContext.GetDatabaseMetric, h]

theorem GetDatabaseMetric_of_none (s : BackendStatsContext TableKey IndexKey)
    (database_id : Nat) (h : find s.database_metrics_ database_id = none) :
    s.GetDatabaseMetric database_id =
      (some (DatabaseMetric.new database_id),
        { s with database_metrics_ :=
            s.database_metrics_ ++ [(database_id, DatabaseMetric.new database_id)] }) := by
  unfold BackendStatsContext.GetDatabaseMetric
  simp only [h, Option.isNone_none, if_true, find_assign_same]
  rw [assign_of_find_none _ _ _ h]

theorem GetTableMetric_of_some (TableGetKey : Nat → Nat → TableKey)
    (s : BackendStatsContext TableKey IndexKey) (database_id table_id : Nat)
    (m : TableMetric)
    (h : find s.table_metrics_ (TableGetKey database_id table_id) = some m) :
    s.GetTableMetric TableGetKey database_id table_id = (some m, s) := by
  simp [BackendStatsContext.GetTableMetric, h]

theorem GetTableMetric_of_none (TableGetKey : Nat → Nat → TableKey)
    (s : BackendStatsContext TableKey IndexKey) (database_id table_id : Nat)
    (h : find s.table_metrics_ (TableGetKey database_id table_id) = none) :
    s.GetTableMetric TableGetKey database_id table_id =
      (some (TableMetric.new database_id table_id),
        { s with table_metrics_ :=
            s.table_metrics_ ++
              [(TableGetKey database_id table_id, TableMetric.new database_id table_id)] }) := by
  unfold BackendStatsContext.GetTableMetric
  simp only [h, Option.isNone_none, if_true, find_assign_same]
  rw [assign_of_find_none _ _ _ h]

theorem GetIndexMetric_of_some (IndexGetKey : Nat → Nat → Nat → IndexKey)
    (s : BackendStatsContext TableKey IndexKey) (database_id table_id index_id : Nat)
    (m : IndexMetric)
    (h : find s.index_metrics_ (IndexGetKey database_id table_id index_id) = some m) :
    s.GetIndexMetric IndexGetKey database_id table_id index_id = (some m, s) := by
  simp [BackendStatsContext.GetIndexMetric, h]

theorem GetIndexMetric_of_none (IndexGetKey : Nat → Nat → Nat → IndexKey)
    (s : BackendStatsContext TableKey IndexKey) (database_id table_id index_id : Nat)
    (h : find s.index_metrics_ (IndexGetKey database_id table_id index_id) = none) :
    s.GetIndexMetric IndexGetKey database_id table_id index_id =
      (some (IndexMetric.new database_id table_id index_id),
        { s with index_metrics_ :=
            s.index_metrics_ ++
              [(IndexGetKey database_id table_id index_id,
                IndexMetric.new database_id table_id index_id)] }) := by
  unfold BackendStatsContext.GetIndexMetric
  simp only [h, Option.isNone_none, if_true, find_assign_same]
  rw [assign_of_find_none _ _ _ h]

end stats

namespace stats

set_option linter.unusedSectionVars false

variable {TableKey IndexKey : Type} [DecidableEq TableKey] [DecidableEq IndexKey]

theorem GetDatabaseMetric_isSome (s : BackendStatsContext TableKey IndexKey)
    (database_id : Nat) : ∃ m, (s.GetDatabaseMetric database_id).1 = some m := by
  cases h : find s.database_metrics_ database_id with
  | none => exact ⟨_, by rw [GetDatabaseMetric_of_none s database_id h]⟩
  | some m => exact ⟨m, by rw [GetDatabaseMetric_of_some s database_id m h]⟩

theorem GetTableMetric_isSome (TableGetKey : Nat → Nat → TableKey)
    (s : BackendStatsContext TableKey IndexKey) (database_id table_id : Nat) :
    ∃ m, (s.GetTableMetric TableGetKey database_id table_id).1 = some m := by
  cases h : find s.table_metrics_ (TableGetKey database_id table_id) with
  | none => exact ⟨_, by rw [GetTableMetric_of_none TableGetKey s database_id table_id h]⟩
  | some m =>
    exact ⟨m, by rw [GetTableMetric_of_some TableGetKey s database_id table_id m h]⟩

theorem GetIndexMetric_isSome (IndexGetKey : Nat → Nat → Nat → IndexKey)
    (s : BackendStatsContext TableKey IndexKey) (database_id table_id index_id : Nat) :
    ∃ m, (s.GetIndexMetric IndexGetKey database_id table_id index_id).1 = some m := by
  cases h : find s.index_metrics_ (IndexGetKey database_id table_id index_id) with
  | none =>
    exact ⟨_, by rw [GetIndexMetric_of_none IndexGetKey s database_id table_id index_id h]⟩
  | some m =>
    exact ⟨m, by rw [GetIndexMetric_of_some IndexGetKey s database_id table_id index_id m h]⟩

/-- C12: `GetDatabaseMetric`, `GetTableMetric` and `GetIndexMetric` return a non-null
metric, the one stored under the requested key after the call.  If the key had an entry,
that entry is returned and the context is unchanged; otherwise one entry for the key,
holding a new metric of the requested ids, is added and nothing else changes.  So the
`PL_ASSERT` of none of the ten Increment operations fails. -/
theorem GetMetric_returns_stored_entry (TableGetKey : Nat → Nat → TableKey)
    (IndexGetKey : Nat → Nat → Nat → IndexKey) (GetTileGroup : Nat → TileGroup)
    (s : BackendStatsContext TableKey IndexKey)
    (database_id table_id index_id tile_group_id count : Nat) (metadata : IndexMetadata) :
    ((s.GetDatabaseMetric database_id).1.isSome = true
      ∧ (s.GetDatabaseMetric database_id).1
          = find (s.GetDatabaseMetric database_id).2.database_metrics_ database_id
      ∧ (∀ m, find s.database_metrics_ database_id = some m →
          s.GetDatabaseMetric database_id = (some m, s))
      ∧ (find s.database_metrics_ database_id = none →
          s.GetDatabaseMetric database_id =
            (some (DatabaseMetric.new database_id),
              { s with database_metrics_ :=
                  s.database_metrics_ ++ [(database_id, DatabaseMetric.new database_id)] })))
    ∧ ((s.GetTableMetric TableGetKey database_id table_id).1.isSome = true
      ∧ (s.GetTableMetric TableGetKey database_id table_id).1
          = find (s.GetTableMetric TableGetKey database_id table_id).2.table_metrics_
              (TableGetKey database_id table_id)
      ∧ (∀ m, find s.table_metrics_ (TableGetKey database_id table_id) = some m →
          s.GetTableMetric TableGetKey database_id table_id = (some m, s))
      ∧ (find s.table_metrics_ (TableGetKey database_id table_id) = none →
          s.GetTableMetric TableGetKey database_id table_id =
            (some (TableMetric.new database_id table_id),
              { s with table_metrics_ :=
                  s.table_metrics_ ++
                    [(TableGetKey database_id table_id,
                      TableMetric.new database_id table_id)] })))
    ∧ ((s.GetIndexMetric IndexGetKey database_id table_id index_id).1.isSome = true
      ∧ (s.GetIndexMetric IndexGetKey database_id table_id index_id).1
          = find (s.GetIndexMetric IndexGetKey database_id table_id index_id).2.index_metrics_
              (IndexGetKey database_id table_id index_id)
      ∧ (∀ m, find s.index_metrics_ (IndexGetKey database_id table_id index_id) = some m →
          s.GetIndexMetric IndexGetKey database_id table_id index_id = (some m, s))
      ∧ (find s.index_metrics_ (IndexGetKey database_id table_id index_id) = none →
          s.GetIndexMetric IndexGetKey database_id table_id index_id =
            (some (IndexMetric.new database_id table_id index_id),
              { s with index_metrics_ :=
                  s.index_metrics_ ++
                    [(IndexGetKey database_id table_id index_id,
                      IndexMetric.new database_id table_id index_id)] })))
    ∧ ((s.IncrementTableReads TableGetKey GetTileGroup tile_group_id).ok = true
      ∧ (s.IncrementTableInserts TableGetKey GetTileGroup tile_group_id).ok = true
      ∧ (s.IncrementTableUpdates TableGetKey GetTileGroup tile_group_id).ok = true
      ∧ (s.IncrementTableDeletes TableGetKey GetTileGroup tile_group_id).ok = true
      ∧ (s.IncrementIndexReads IndexGetKey count metadata).ok = true
      ∧ (s.IncrementIndexInserts IndexGetKey metadata).ok = true
      ∧ (s.IncrementTableUpdates_metadata IndexGetKey metadata).ok = true
      ∧ (s.IncrementIndexDeletes IndexGetKey count metadata).ok = true
      ∧ (s.IncrementTxnCommitted database_id).ok = true
      ∧ (s.IncrementTxnAborted database_id).ok = true) := by
  refine ⟨⟨?_, rfl, GetDatabaseMetric_of_some s database_id,
      GetDatabaseMetric_of_none s database_id⟩,
    ⟨?_, rfl, GetTableMetric_of_some TableGetKey s database_id table_id,
      GetTableMetric_of_none TableGetKey s database_id table_id⟩,
    ⟨?_, rfl, GetIndexMetric_of_some IndexGetKey s database_id table_id index_id,
      GetIndexMetric_of_none IndexGetKey s database_id table_id index_id⟩, ?_⟩
  · obtain ⟨m, hm⟩ := GetDatabaseMetric_isSome s database_id
    rw [hm]; rfl
  · obtain ⟨m, hm⟩ := GetTableMetric_isSome TableGetKey s database_id table_id
    rw [hm]; rfl
  · obtain ⟨m, hm⟩ := GetIndexMetric_isSome IndexGetKey s database_id table_id index_id
    rw [hm]; rfl
  · obtain ⟨mt, hmt⟩ := GetTableMetric_isSome TableGetKey s
      (GetTileGroup tile_group_id).database_id (GetTileGroup tile_group_id).table_id
    obtain ⟨mi, hmi⟩ := GetIndexMetric_isSome IndexGetKey s metadata.database_oid
      metadata.table_oid metadata.index_oid
    obtain ⟨md, hmd⟩ := GetDatabaseMetric_isSome s database_id
    refine ⟨?_, ?_, ?_, ?_, ?_, ?_, ?_, ?_, ?_, ?_⟩
    · simp only [BackendStatsContext.IncrementTableReads, hmt]; rfl
    · simp only [BackendStatsContext.IncrementTableInserts, hmt]; rfl
    · simp only [BackendStatsContext.IncrementTableUpdates, hmt]; rfl
    · simp only [BackendStatsContext.IncrementTableDeletes, hmt]; rfl
    · simp only [BackendStatsContext.IncrementIndexReads, hmi]; rfl
    · simp only [BackendStatsContext.IncrementIndexInserts, hmi]; rfl
    · simp only [BackendStatsContext.IncrementTableUpdates_metadata, hmi]; rfl
    · simp only [BackendStatsContext.IncrementIndexDeletes, hmi]; rfl
    · simp only [BackendStatsContext.IncrementTxnCommitted, hmd]; rfl
    · simp only [BackendStatsContext.IncrementTxnAborted, hmd]; rfl

end stats

namespace stats

set_option linter.unusedSectionVars false

variable {TableKey IndexKey : Type} [DecidableEq TableKey] [DecidableEq IndexKey]

/-! ### Transaction counters -/

/-- What `IncrementTxnCommitted` returns, in terms of the metric stored for the database
before the call (a new metric if there was none). -/
theorem IncrementTxnCommitted_eq (s : BackendStatsContext TableKey IndexKey)
    (database_id : Nat) :
    s.IncrementTxnCommitted database_id =
      .returned { s with
        database_metrics_ :=
          assign s.database_metrics_ database_id
            (DatabaseMetric.IncrementTxnCommitted
              ((find s.database_metrics_ database_id).getD
                (DatabaseMetric.new database_id))) } := by
  cases h : find s.database_metrics_ database_id with
  | none =>
    simp [BackendStatsContext.IncrementTxnCommitted, BackendStatsContext.GetDatabaseMetric,
      h, find_assign_same, assign_assign]
  | some m =>
    simp [BackendStatsContext.IncrementTxnCommitted, BackendStatsContext.GetDatabaseMetric, h]

/-- What `IncrementTxnAborted` returns, in terms of the metric stored for the database
before the call (a new metric if there was none). -/
theorem IncrementTxnAborted_eq (s : BackendStatsContext TableKey IndexKey)
    (database_id : Nat) :
    s.IncrementTxnAborted database_id =
      .returned { s with
        database_metrics_ :=
          assign s.database_metrics_ database_id
            (DatabaseMetric.IncrementTxnAborted
              ((find s.database_metrics_ database_id).getD
                (DatabaseMetric.new database_id))) } := by
  cases h : find s.database_metrics_ database_id with
  | none =>
    simp [BackendStatsContext.IncrementTxnAborted, BackendStatsContext.GetDatabaseMetric,
      h, find_assign_same, assign_assign]
  | some m =>
    simp [BackendStatsContext.IncrementTxnAborted, BackendStatsContext.GetDatabaseMetric, h]

/-- C16: `IncrementTxnCommitted(d)` returns, and afterwards the metric stored for database
`d` has a committed count one above the count before (zero if `d` had no metric) and
the aborted count of before (zero if `d` had no metric); the metric of every other
database id and the table and index maps are unchanged.  `IncrementTxnAborted(d)` does
the same with the two counts exchanged. -/
theorem IncrementTxn_counts (s : BackendStatsContext TableKey IndexKey) (d : Nat) :
    (∃ s1 m1, s.IncrementTxnCommitted d = .returned s1
      ∧ find s1.database_metrics_ d = some m1
      ∧ m1.txn_committed_ =
          (match find s.database_metrics_ d with
            | some m => m.txn_committed_
            | none => 0) + 1
      ∧ m1.txn_aborted_ =
          (match find s.database_metrics_ d with
            | some m => m.txn_aborted_
            | none => 0)
      ∧ (∀ d2, d2 ≠ d → find s1.database_metrics_ d2 = find s.database_metrics_ d2)
      ∧ s1.table_metrics_ = s.table_metrics_
      ∧ s1.index_metrics_ = s.index_metrics_)
    ∧ (∃ s1 m1, s.IncrementTxnAborted d = .returned s1
      ∧ find s1.database_metrics_ d = some m1
      ∧ m1.txn_aborted_ =
          (match find s.database_metrics_ d with
            | some m => m.txn_aborted_
            | none => 0) + 1
      ∧ m1.txn_committed_ =
          (match find s.database_metrics_ d with
            | some m => m.txn_committed_
            | none => 0)
      ∧ (∀ d2, d2 ≠ d → find s1.database_metrics_ d2 = find s.database_metrics_ d2)
      ∧ s1.table_metrics_ = s.table_metrics_
      ∧ s1.index_metrics_ = s.index_metrics_) := by
  refine ⟨⟨_, DatabaseMetric.IncrementTxnCommitted
        ((find s.database_metrics_ d).getD (DatabaseMetric.new d)),
      IncrementTxnCommitted_eq s d, find_assign_same _ _ _, ?_, ?_,
      fun d2 hd => find_assign_ne _ _ _ _ hd, rfl, rfl⟩,
    ⟨_, DatabaseMetric.IncrementTxnAborted
        ((find s.database_metrics_ d).getD (DatabaseMetric.new d)),
      IncrementTxnAborted_eq s d, find_assign_same _ _ _, ?_, ?_,
      fun d2 hd => find_assign_ne _ _ _ _ hd, rfl, rfl⟩⟩
  all_goals
    cases find s.database_metrics_ d <;>
      simp [DatabaseMetric.IncrementTxnCommitted, DatabaseMetric.IncrementTxnAborted,
        DatabaseMetric.new]

/-- Evaluation of the two operations on a context holding database 1 with 3 committed and 2 aborted
transactions and database 2 with 5 and 0: one commit on database 1, one abort on the
new database 9. -/
theorem IncrementTxn_counts_example :
    (BackendStatsContext.IncrementTxnCommitted
        (⟨[(1, ⟨1, 3, 2⟩), (2, ⟨2, 5, 0⟩)], [], []⟩ : BackendStatsContext Nat Nat) 1)
      = .returned ⟨[(1, ⟨1, 4, 2⟩), (2, ⟨2, 5, 0⟩)], [], []⟩
    ∧ (BackendStatsContext.IncrementTxnAborted
        (⟨[(1, ⟨1, 3, 2⟩), (2, ⟨2, 5, 0⟩)], [], []⟩ : BackendStatsContext Nat Nat) 9)
      = .returned ⟨[(1, ⟨1, 3, 2⟩), (2, ⟨2, 5, 0⟩), (9, ⟨9, 0, 1⟩)], [], []⟩ := by
  exact ⟨rfl, rfl⟩

end stats

namespace stats

set_option linter.unusedSectionVars false

variable {TableKey IndexKey : Type} [DecidableEq TableKey] [DecidableEq IndexKey]

/-! ### Folding a list of entries into a map -/

theorem mem_keys_foldl_assign {K V E : Type} [DecidableEq K] (key : E → K)
    (upd : Option V → E → V) (src : List E) (m : List (K × V)) (k : K) :
    k ∈ keys (src.foldl (fun m e => assign m (key e) (upd (find m (key e)) e)) m)
      ↔ k ∈ keys m ∨ k ∈ src.map key := by
  induction src generalizing m with
  | nil => simp
  | cons e src ih =>
    rw [List.foldl_cons, ih, mem_keys_assign]
    simp only [List.map_cons, List.mem_cons]
    tauto

theorem find_foldl_assign_of_not_mem {K V E : Type} [DecidableEq K] (key : E → K)
    (upd : Option V → E → V) (src : List E) (m : List (K × V)) (k : K)
    (hk : k ∉ src.map key) :
    find (src.foldl (fun m e => assign m (key e) (upd (find m (key e)) e)) m) k
      = find m k := by
  induction src generalizing m with
  | nil => rfl
  | cons e src ih =>
    simp only [List.map_cons, List.mem_cons, not_or] at hk
    rw [List.foldl_cons, ih _ hk.2, find_assign_ne _ _ _ _ hk.1]

theorem find_foldl_assign_of_mem {K V E : Type} [DecidableEq K] (key : E → K)
    (upd : Option V → E → V) (src : List E) (m : List (K × V)) (e : E)
    (hnd : (src.map key).Nodup) (he : e ∈ src) :
    find (src.foldl (fun m e => assign m (key e) (upd (find m (key e)) e)) m) (key e)
      = some (upd (find m (key e)) e) := by
  induction src generalizing m with
  | nil => cases he
  | cons e0 src ih =>
    simp only [List.map_cons, List.nodup_cons] at hnd
    rw [List.foldl_cons]
    rcases List.mem_cons.mp he with h | h
    · subst h
      rw [find_foldl_assign_of_not_mem key upd src _ _ hnd.1, find_assign_same]
    · have hne : key e ≠ key e0 := by
        intro heq
        apply hnd.1
        rw [← heq]
        exact List.mem_map.mpr ⟨e, h, rfl⟩
      rw [ih _ hnd.2 h, find_assign_ne _ _ _ _ hne]

/-! ### `Aggregate` -/

theorem AggregateDatabaseItem_eq (t : BackendStatsContext TableKey IndexKey)
    (item : Nat × DatabaseMetric) :
    t.AggregateDatabaseItem item =
      some { t with
        database_metrics_ :=
          assign t.database_metrics_ item.1
            (DatabaseMetric.Aggregate
              ((find t.database_metrics_ item.1).getD (DatabaseMetric.new item.1))
              item.2) } := by
  cases h : find t.database_metrics_ item.1 with
  | none =>
    simp [BackendStatsContext.AggregateDatabaseItem, BackendStatsContext.GetDatabaseMetric,
      h, find_assign_same, assign_assign]
  | some m =>
    simp [BackendStatsContext.AggregateDatabaseItem, BackendStatsContext.GetDatabaseMetric, h]

theorem AggregateTableItem_eq (TableGetKey : Nat → Nat → TableKey)
    (t : BackendStatsContext TableKey IndexKey) (item : TableKey × TableMetric) :
    t.AggregateTableItem TableGetKey item =
      some { t with
        table_metrics_ :=
          assign t.table_metrics_ (TableGetKey item.2.GetDatabaseId item.2.GetTableId)
            (TableMetric.Aggregate
              ((find t.table_metrics_
                  (TableGetKey item.2.GetDatabaseId item.2.GetTableId)).getD
                (TableMetric.new item.2.GetDatabaseId item.2.GetTableId))
              item.2) } := by
  cases h : find t.table_metrics_ (TableGetKey item.2.GetDatabaseId item.2.GetTableId) with
  | none =>
    simp [BackendStatsContext.AggregateTableItem, BackendStatsContext.GetTableMetric,
      h, find_assign_same, assign_assign]
  | some m =>
    simp [BackendStatsContext.AggregateTableItem, BackendStatsContext.GetTableMetric, h]

theorem AggregateIndexItem_eq (IndexGetKey : Nat → Nat → Nat → IndexKey)
    (t : BackendStatsContext TableKey IndexKey) (item : IndexKey × IndexMetric) :
    t.AggregateIndexItem IndexGetKey item =
      some { t with
        index_metrics_ :=
          assign t.index_metrics_
            (IndexGetKey item.2.GetDatabaseId item.2.GetTableId item.2.GetIndexId)
            (IndexMetric.Aggregate
              ((find t.index_metrics_
                  (IndexGetKey item.2.GetDatabaseId item.2.GetTableId
                    item.2.GetIndexId)).getD
                (IndexMetric.new item.2.GetDatabaseId item.2.GetTableId item.2.GetIndexId))
              item.2) } := by
  cases h : find t.index_metrics_
      (IndexGetKey item.2.GetDatabaseId item.2.GetTableId item.2.GetIndexId) with
  | none =>
    simp [BackendStatsContext.AggregateIndexItem, BackendStatsContext.GetIndexMetric,
      h, find_assign_same, assign_assign]
  | some m =>
    simp [BackendStatsContext.AggregateIndexItem, BackendStatsContext.GetIndexMetric, h]

theorem foldlM_AggregateDatabaseItem (items : List (Nat × DatabaseMetric))
    (t : BackendStatsContext TableKey IndexKey) :
    items.foldlM (fun t item => BackendStatsContext.AggregateDatabaseItem t item) t =
      some { t with
        database_metrics_ :=
          items.foldl (fun m e => assign m e.1
            ((fun (o : Option DatabaseMetric) (e : Nat × DatabaseMetric) =>
              DatabaseMetric.Aggregate (o.getD (DatabaseMetric.new e.1)) e.2)
              (find m e.1) e)) t.database_metrics_ } := by
  induction items generalizing t with
  | nil => rfl
  | cons e items ih =>
    rw [List.foldlM_cons, AggregateDatabaseItem_eq]
    simp only [Option.bind_eq_bind, Option.some_bind]
    rw [ih]
    rfl

theorem foldlM_AggregateTableItem (TableGetKey : Nat → Nat → TableKey)
    (items : List (TableKey × TableMetric)) (t : BackendStatsContext TableKey IndexKey) :
    items.foldlM (fun t item => BackendStatsContext.AggregateTableItem TableGetKey t item) t =
      some { t with
        table_metrics_ :=
          items.foldl (fun m e =>
            assign m (TableGetKey e.2.GetDatabaseId e.2.GetTableId)
              ((fun (o : Option TableMetric) (e : TableKey × TableMetric) =>
                TableMetric.Aggregate
                  (o.getD (TableMetric.new e.2.GetDatabaseId e.2.GetTableId)) e.2)
                (find m (TableGetKey e.2.GetDatabaseId e.2.GetTableId)) e))
            t.table_metrics_ } := by
  induction items generalizing t with
  | nil => rfl
  | cons e items ih =>
    rw [List.foldlM_cons, AggregateTableItem_eq]
    simp only [Option.bind_eq_bind, Option.some_bind]
    rw [ih]
    rfl

theorem foldlM_AggregateIndexItem (IndexGetKey : Nat → Nat → Nat → IndexKey)
    (items : List (IndexKey × IndexMetric)) (t : BackendStatsContext TableKey IndexKey) :
    items.foldlM (fun t item => BackendStatsContext.AggregateIndexItem IndexGetKey t item) t =
      some { t with
        index_metrics_ :=
          items.foldl (fun m e =>
            assign m (IndexGetKey e.2.GetDatabaseId e.2.GetTableId e.2.GetIndexId)
              ((fun (o : Option IndexMetric) (e : IndexKey × IndexMetric) =>
                IndexMetric.Aggregate
                  (o.getD (IndexMetric.new e.2.GetDatabaseId e.2.GetTableId e.2.GetIndexId))
                  e.2)
                (find m (IndexGetKey e.2.GetDatabaseId e.2.GetTableId e.2.GetIndexId)) e))
            t.index_metrics_ } := by
  induction items generalizing t with
  | nil => rfl
  | cons e items ih =>
    rw [List.foldlM_cons, AggregateIndexItem_eq]
    simp only [Option.bind_eq_bind, Option.some_bind]
    rw [ih]
    rfl

end stats

namespace stats

set_option linter.unusedSectionVars false

variable {TableKey IndexKey : Type} [DecidableEq TableKey] [DecidableEq IndexKey]

/-- The three loops of `Aggregate` as folds over the entries of the source maps: no null
pointer is dereferenced, and each loop changes its own map only. -/
theorem Aggregate_eq (TableGetKey : Nat → Nat → TableKey)
    (IndexGetKey : Nat → Nat → Nat → IndexKey)
    (target source : BackendStatsContext TableKey IndexKey) :
    target.Aggregate TableGetKey IndexGetKey source =
      some (⟨source.database_metrics_.foldl (fun m e => assign m e.1
              ((fun (o : Option DatabaseMetric) (e : Nat × DatabaseMetric) =>
                DatabaseMetric.Aggregate (o.getD (DatabaseMetric.new e.1)) e.2)
                (find m e.1) e)) target.database_metrics_,
            source.table_metrics_.foldl (fun m e =>
              assign m (TableGetKey e.2.GetDatabaseId e.2.GetTableId)
                ((fun (o : Option TableMetric) (e : TableKey × TableMetric) =>
                  TableMetric.Aggregate
                    (o.getD (TableMetric.new e.2.GetDatabaseId e.2.GetTableId)) e.2)
                  (find m (TableGetKey e.2.GetDatabaseId e.2.GetTableId)) e))
              target.table_metrics_,
            source.index_metrics_.foldl (fun m e =>
              assign m (IndexGetKey e.2.GetDatabaseId e.2.GetTableId e.2.GetIndexId)
                ((fun (o : Option IndexMetric) (e : IndexKey × IndexMetric) =>
                  IndexMetric.Aggregate
                    (o.getD
                      (IndexMetric.new e.2.GetDatabaseId e.2.GetTableId e.2.GetIndexId))
                    e.2)
                  (find m (IndexGetKey e.2.GetDatabaseId e.2.GetTableId e.2.GetIndexId)) e))
              target.index_metrics_⟩, source) := by
  unfold BackendStatsContext.Aggregate
  rw [foldlM_AggregateDatabaseItem]
  simp only
  rw [foldlM_AggregateTableItem]
  simp only
  rw [foldlM_AggregateIndexItem]

/-- In a well-formed context the keys of the table map are the keys of the ids of its
metrics. -/
theorem WellFormed_table_keys (TableGetKey : Nat → Nat → TableKey)
    (IndexGetKey : Nat → Nat → Nat → IndexKey)
    (s : BackendStatsContext TableKey IndexKey) (hwf : s.WellFormed TableGetKey IndexGetKey) :
    s.table_metrics_.map (fun e => TableGetKey e.2.GetDatabaseId e.2.GetTableId)
      = keys s.table_metrics_ := by
  apply List.map_congr_left
  intro e he
  exact (hwf.2.2.2.1 e he).symm

/-- In a well-formed context the keys of the index map are the keys of the ids of its
metrics. -/
theorem WellFormed_index_keys (TableGetKey : Nat → Nat → TableKey)
    (IndexGetKey : Nat → Nat → Nat → IndexKey)
    (s : BackendStatsContext TableKey IndexKey) (hwf : s.WellFormed TableGetKey IndexGetKey) :
    s.index_metrics_.map
        (fun e => IndexGetKey e.2.GetDatabaseId e.2.GetTableId e.2.GetIndexId)
      = keys s.index_metrics_ := by
  apply List.map_congr_left
  intro e he
  exact (hwf.2.2.2.2 e he).symm

/-- C15: for a target and a well-formed source (each key once, table and index metrics
stored under the key of their ids), `target.Aggregate(source)` returns; afterwards the
keys of each of the target maps are those of the target and of the source before; every
metric of the source has been aggregated once into the target metric of the same key,
a new metric of its ids if the target had none; the metrics under keys that the source
does not have are unchanged; and the source is unchanged. -/
theorem Aggregate_merges_source (TableGetKey : Nat → Nat → TableKey)
    (IndexGetKey : Nat → Nat → Nat → IndexKey)
    (target source : BackendStatsContext TableKey IndexKey)
    (hwf : source.WellFormed TableGetKey IndexGetKey) :
    ∃ t1, target.Aggregate TableGetKey IndexGetKey source = some (t1, source)
      ∧ (∀ k, k ∈ keys t1.database_metrics_
          ↔ k ∈ keys target.database_metrics_ ∨ k ∈ keys source.database_metrics_)
      ∧ (∀ k, k ∈ keys t1.table_metrics_
          ↔ k ∈ keys target.table_metrics_ ∨ k ∈ keys source.table_metrics_)
      ∧ (∀ k, k ∈ keys t1.index_metrics_
          ↔ k ∈ keys target.index_metrics_ ∨ k ∈ keys source.index_metrics_)
      ∧ (∀ k m, (k, m) ∈ source.database_metrics_ →
          find t1.database_metrics_ k =
            some (DatabaseMetric.Aggregate
              ((find target.database_metrics_ k).getD (DatabaseMetric.new k)) m))
      ∧ (∀ k m, (k, m) ∈ source.table_metrics_ →
          find t1.table_metrics_ k =
            some (TableMetric.Aggregate
              ((find target.table_metrics_ k).getD
                (TableMetric.new m.GetDatabaseId m.GetTableId)) m))
      ∧ (∀ k m, (k, m) ∈ source.index_metrics_ →
          find t1.index_metrics_ k =
            some (IndexMetric.Aggregate
              ((find target.index_metrics_ k).getD
                (IndexMetric.new m.GetDatabaseId m.GetTableId m.GetIndexId)) m))
      ∧ (∀ k, k ∉ keys source.database_metrics_ →
          find t1.database_metrics_ k = find target.database_metrics_ k)
      ∧ (∀ k, k ∉ keys source.table_metrics_ →
          find t1.table_metrics_ k = find target.table_metrics_ k)
      ∧ (∀ k, k ∉ keys source.index_metrics_ →
          find t1.index_metrics_ k = find target.index_metrics_ k) := by
  have hT := WellFormed_table_keys TableGetKey IndexGetKey source hwf
  have hI := WellFormed_index_keys TableGetKey IndexGetKey source hwf
  obtain ⟨hndD, hndT, hndI, hkT, hkI⟩ := hwf
  refine ⟨_, Aggregate_eq TableGetKey IndexGetKey target source, ?_, ?_, ?_, ?_, ?_, ?_,
    ?_, ?_, ?_⟩
  · intro k
    exact mem_keys_foldl_assign Prod.fst
      (fun (o : Option DatabaseMetric) (e : Nat × DatabaseMetric) =>
        DatabaseMetric.Aggregate (o.getD (DatabaseMetric.new e.1)) e.2)
      source.database_metrics_ target.database_metrics_ k
  · intro k
    have h := mem_keys_foldl_assign
      (fun e : TableKey × TableMetric => TableGetKey e.2.GetDatabaseId e.2.GetTableId)
      (fun (o : Option TableMetric) (e : TableKey × TableMetric) =>
        TableMetric.Aggregate
          (o.getD (TableMetric.new e.2.GetDatabaseId e.2.GetTableId)) e.2)
      source.table_metrics_ target.table_metrics_ k
    rw [hT] at h
    exact h
  · intro k
    have h := mem_keys_foldl_assign
      (fun e : IndexKey × IndexMetric =>
        IndexGetKey e.2.GetDatabaseId e.2.GetTableId e.2.GetIndexId)
      (fun (o : Option IndexMetric) (e : IndexKey × IndexMetric) =>
        IndexMetric.Aggregate
          (o.getD (IndexMetric.new e.2.GetDatabaseId e.2.GetTableId e.2.GetIndexId)) e.2)
      source.index_metrics_ target.index_metrics_ k
    rw [hI] at h
    exact h
  · intro k m hmem
    exact find_foldl_assign_of_mem Prod.fst
      (fun (o : Option DatabaseMetric) (e : Nat × DatabaseMetric) =>
        DatabaseMetric.Aggregate (o.getD (DatabaseMetric.new e.1)) e.2)
      source.database_metrics_ target.database_metrics_ (k, m) hndD hmem
  · intro k m hmem
    have h := find_foldl_assign_of_mem
      (fun e : TableKey × TableMetric => TableGetKey e.2.GetDatabaseId e.2.GetTableId)
      (fun (o : Option TableMetric) (e : TableKey × TableMetric) =>
        TableMetric.Aggregate
          (o.getD (TableMetric.new e.2.GetDatabaseId e.2.GetTableId)) e.2)
      source.table_metrics_ target.table_metrics_ (k, m) (by rw [hT]; exact hndT) hmem
    have hk : TableGetKey m.GetDatabaseId m.GetTableId = k := (hkT (k, m) hmem).symm
    simp only [hk] at h
    exact h
  · intro k m hmem
    have h := find_foldl_assign_of_mem
      (fun e : IndexKey × IndexMetric =>
        IndexGetKey e.2.GetDatabaseId e.2.GetTableId e.2.GetIndexId)
      (fun (o : Option IndexMetric) (e : IndexKey × IndexMetric) =>
        IndexMetric.Aggregate
          (o.getD (IndexMetric.new e.2.GetDatabaseId e.2.GetTableId e.2.GetIndexId)) e.2)
      source.index_metrics_ target.index_metrics_ (k, m) (by rw [hI]; exact hndI) hmem
    have hk : IndexGetKey m.GetDatabaseId m.GetTableId m.GetIndexId = k :=
      (hkI (k, m) hmem).symm
    simp only [hk] at h
    exact h
  · intro k hk
    exact find_foldl_assign_of_not_mem Prod.fst
      (fun (o : Option DatabaseMetric) (e : Nat × DatabaseMetric) =>
        DatabaseMetric.Aggregate (o.getD (DatabaseMetric.new e.1)) e.2)
      source.database_metrics_ target.database_metrics_ k hk
  · intro k hk
    exact find_foldl_assign_of_not_mem
      (fun e : TableKey × TableMetric => TableGetKey e.2.GetDatabaseId e.2.GetTableId)
      (fun (o : Option TableMetric) (e : TableKey × TableMetric) =>
        TableMetric.Aggregate
          (o.getD (TableMetric.new e.2.GetDatabaseId e.2.GetTableId)) e.2)
      source.table_metrics_ target.table_metrics_ k (by rw [hT]; exact hk)
  · intro k hk
    exact find_foldl_assign_of_not_mem
      (fun e : IndexKey × IndexMetric =>
        IndexGetKey e.2.GetDatabaseId e.2.GetTableId e.2.GetIndexId)
      (fun (o : Option IndexMetric) (e : IndexKey × IndexMetric) =>
        IndexMetric.Aggregate
          (o.getD (IndexMetric.new e.2.GetDatabaseId e.2.GetTableId e.2.GetIndexId)) e.2)
      source.index_metrics_ target.index_metrics_ k (by rw [hI]; exact hk)

end stats

namespace stats

set_option linter.unusedSectionVars false

variable {TableKey IndexKey : Type} [DecidableEq TableKey] [DecidableEq IndexKey]

/-- Witness for C15: the sample source aggregated into the sample target. -/
theorem Aggregate_merges_source_witness :
    ∃ t1, sampleTarget.Aggregate (fun d t => (d, t)) (fun d t i => (d, t, i)) sampleSource
        = some (t1, sampleSource)
      ∧ find t1.database_metrics_ 1 = some ⟨1, 4, 3⟩
      ∧ find t1.database_metrics_ 2 = some ⟨2, 4, 0⟩
      ∧ find t1.table_metrics_ (1, 10) = some ⟨1, 10, ⟨3, 1, 1, 1⟩⟩
      ∧ find t1.table_metrics_ (2, 20) = some ⟨2, 20, ⟨0, 5, 0, 0⟩⟩
      ∧ find t1.index_metrics_ (1, 10, 100) = some ⟨1, 10, 100, ⟨7, 0, 0, 0⟩⟩ := by
  obtain ⟨t1, h1, _, _, _, hD, hT, hI, _⟩ :=
    Aggregate_merges_source (fun d t => (d, t)) (fun d t i => (d, t, i))
      sampleTarget sampleSource
      ⟨by decide, by decide, by decide, by decide, by decide⟩
  exact ⟨t1, h1, hD 1 ⟨1, 1, 1⟩ (by decide), hD 2 ⟨2, 4, 0⟩ (by decide),
    hT (1, 10) ⟨1, 10, ⟨2, 0, 0, 0⟩⟩ (by decide),
    hT (2, 20) ⟨2, 20, ⟨0, 5, 0, 0⟩⟩ (by decide),
    hI (1, 10, 100) ⟨1, 10, 100, ⟨7, 0, 0, 0⟩⟩ (by decide)⟩

end stats

namespace stats

set_option linter.unusedSectionVars false

variable {TableKey IndexKey : Type} [DecidableEq TableKey] [DecidableEq IndexKey]

/-! ### The representation invariant is kept by the operations that write the maps -/

theorem nodup_keys_assign {K V : Type} [DecidableEq K] (m : List (K × V)) (k : K) (v : V)
    (hnd : (keys m).Nodup) : (keys (assign m k v)).Nodup := by
  by_cases hk : k ∈ keys m
  · rw [keys_assign_of_mem m k v hk]
    exact hnd
  · rw [assign_of_find_none m k v ((find_eq_none_iff m k).mpr hk)]
    simp only [keys, List.map_append, List.map_cons, List.map_nil]
    apply List.Nodup.append hnd (List.nodup_singleton k)
    intro a ha hb
    rw [List.mem_singleton] at hb
    subst hb
    exact hk ha

theorem mem_assign {K V : Type} [DecidableEq K] (m : List (K × V)) (k : K) (v : V)
    (e : K × V) (he : e ∈ assign m k v) : e = (k, v) ∨ e ∈ m := by
  induction m with
  | nil =>
    simp only [assign, List.mem_singleton] at he
    exact Or.inl he
  | cons e0 m ih =>
    obtain ⟨k1, v1⟩ := e0
    by_cases h : k1 = k
    · simp only [assign, h, if_true, List.mem_cons] at he
      rcases he with h1 | h1
      · exact Or.inl h1
      · exact Or.inr (List.mem_cons_of_mem _ h1)
    · simp only [assign, h, if_false, List.mem_cons] at he
      rcases he with h1 | h1
      · exact Or.inr (by rw [h1]; exact List.mem_cons_self _ _)
      · rcases ih h1 with h2 | h2
        · exact Or.inl h2
        · exact Or.inr (List.mem_cons_of_mem _ h2)

/-- The context without any metric is well-formed. -/
theorem WellFormed_empty (TableGetKey : Nat → Nat → TableKey)
    (IndexGetKey : Nat → Nat → Nat → IndexKey) :
    (⟨[], [], []⟩ : BackendStatsContext TableKey IndexKey).WellFormed TableGetKey
      IndexGetKey := by
  refine ⟨List.nodup_nil, List.nodup_nil, List.nodup_nil, ?_, ?_⟩ <;>
    intro e he <;> cases he

theorem WellFormed_assign_database (TableGetKey : Nat → Nat → TableKey)
    (IndexGetKey : Nat → Nat → Nat → IndexKey) (s : BackendStatsContext TableKey IndexKey)
    (k : Nat) (v : DatabaseMetric) (hwf : s.WellFormed TableGetKey IndexGetKey) :
    BackendStatsContext.WellFormed TableGetKey IndexGetKey
      { s with database_metrics_ := assign s.database_metrics_ k v } :=
  ⟨nodup_keys_assign _ _ _ hwf.1, hwf.2.1, hwf.2.2.1, hwf.2.2.2.1, hwf.2.2.2.2⟩

theorem WellFormed_assign_table (TableGetKey : Nat → Nat → TableKey)
    (IndexGetKey : Nat → Nat → Nat → IndexKey) (s : BackendStatsContext TableKey IndexKey)
    (k : TableKey) (v : TableMetric) (hwf : s.WellFormed TableGetKey IndexGetKey)
    (hk : k = TableGetKey v.GetDatabaseId v.GetTableId) :
    BackendStatsContext.WellFormed TableGetKey IndexGetKey
      { s with table_metrics_ := assign s.table_metrics_ k v } := by
  refine ⟨hwf.1, nodup_keys_assign _ _ _ hwf.2.1, hwf.2.2.1, ?_, hwf.2.2.2.2⟩
  intro e he
  rcases mem_assign _ _ _ e he with h | h
  · rw [h]; exact hk
  · exact hwf.2.2.2.1 e h

theorem WellFormed_assign_index (TableGetKey : Nat → Nat → TableKey)
    (IndexGetKey : Nat → Nat → Nat → IndexKey) (s : BackendStatsContext TableKey IndexKey)
    (k : IndexKey) (v : IndexMetric) (hwf : s.WellFormed TableGetKey IndexGetKey)
    (hk : k = IndexGetKey v.GetDatabaseId v.GetTableId v.GetIndexId) :
    BackendStatsContext.WellFormed TableGetKey IndexGetKey
      { s with index_metrics_ := assign s.index_metrics_ k v } := by
  refine ⟨hwf.1, hwf.2.1, nodup_keys_assign _ _ _ hwf.2.2.1, hwf.2.2.2.1, ?_⟩
  intro e he
  rcases mem_assign _ _ _ e he with h | h
  · rw [h]; exact hk
  · exact hwf.2.2.2.2 e h

/-- The three accessors keep the invariant. -/
theorem WellFormed_Get (TableGetKey : Nat → Nat → TableKey)
    (IndexGetKey : Nat → Nat → Nat → IndexKey) (s : BackendStatsContext TableKey IndexKey)
    (database_id table_id index_id : Nat) (hwf : s.WellFormed TableGetKey IndexGetKey) :
    (s.GetDatabaseMetric database_id).2.WellFormed TableGetKey IndexGetKey
    ∧ (s.GetTableMetric TableGetKey database_id table_id).2.WellFormed TableGetKey
        IndexGetKey
    ∧ (s.GetIndexMetric IndexGetKey database_id table_id index_id).2.WellFormed TableGetKey
        IndexGetKey := by
  refine ⟨?_, ?_, ?_⟩
  · unfold BackendStatsContext.GetDatabaseMetric
    dsimp only
    split_ifs
    · exact WellFormed_assign_database TableGetKey IndexGetKey s _ _ hwf
    · exact hwf
  · unfold BackendStatsContext.GetTableMetric
    dsimp only
    split_ifs
    · exact WellFormed_assign_table TableGetKey IndexGetKey s _ _ hwf rfl
    · exact hwf
  · unfold BackendStatsContext.GetIndexMetric
    dsimp only
    split_ifs
    · exact WellFormed_assign_index TableGetKey IndexGetKey s _ _ hwf rfl
    · exact hwf

/-- The two transaction counters keep the invariant. -/
theorem WellFormed_IncrementTxn (TableGetKey : Nat → Nat → TableKey)
    (IndexGetKey : Nat → Nat → Nat → IndexKey) (s : BackendStatsContext TableKey IndexKey)
    (database_id : Nat) (hwf : s.WellFormed TableGetKey IndexGetKey) :
    (s.IncrementTxnCommitted database_id).state.WellFormed TableGetKey IndexGetKey
    ∧ (s.IncrementTxnAborted database_id).state.WellFormed TableGetKey IndexGetKey := by
  rw [IncrementTxnCommitted_eq, IncrementTxnAborted_eq]
  exact ⟨WellFormed_assign_database TableGetKey IndexGetKey s _ _ hwf,
    WellFormed_assign_database TableGetKey IndexGetKey s _ _ hwf⟩

theorem WellFormed_foldlM_database (TableGetKey : Nat → Nat → TableKey)
    (IndexGetKey : Nat → Nat → Nat → IndexKey) (items : List (Nat × DatabaseMetric))
    (t t1 : BackendStatsContext TableKey IndexKey)
    (hwf : t.WellFormed TableGetKey IndexGetKey)
    (hrun : items.foldlM (fun t item => BackendStatsContext.AggregateDatabaseItem t item) t
      = some t1) :
    t1.WellFormed TableGetKey IndexGetKey := by
  induction items generalizing t with
  | nil =>
    simp only [List.foldlM_nil, Option.pure_def, Option.some.injEq] at hrun
    rw [← hrun]; exact hwf
  | cons e items ih =>
    rw [List.foldlM_cons, AggregateDatabaseItem_eq] at hrun
    simp only [Option.bind_eq_bind, Option.some_bind] at hrun
    exact ih _ (WellFormed_assign_database TableGetKey IndexGetKey t _ _ hwf) hrun

theorem WellFormed_foldlM_table (TableGetKey : Nat → Nat → TableKey)
    (IndexGetKey : Nat → Nat → Nat → IndexKey) (items : List (TableKey × TableMetric))
    (t t1 : BackendStatsContext TableKey IndexKey)
    (hwf : t.WellFormed TableGetKey IndexGetKey)
    (hrun : items.foldlM
      (fun t item => BackendStatsContext.AggregateTableItem TableGetKey t item) t = some t1) :
    t1.WellFormed TableGetKey IndexGetKey := by
  induction items generalizing t with
  | nil =>
    simp only [List.foldlM_nil, Option.pure_def, Option.some.injEq] at hrun
    rw [← hrun]; exact hwf
  | cons e items ih =>
    rw [List.foldlM_cons, AggregateTableItem_eq] at hrun
    simp only [Option.bind_eq_bind, Option.some_bind] at hrun
    refine ih _ (WellFormed_assign_table TableGetKey IndexGetKey t _ _ hwf ?_) hrun
    cases hfind : find t.table_metrics_ (TableGetKey e.2.GetDatabaseId e.2.GetTableId) with
    | none => rfl
    | some v0 => exact hwf.2.2.2.1 _ (mem_of_find_eq_some _ _ _ hfind)

theorem WellFormed_foldlM_index (TableGetKey : Nat → Nat → TableKey)
    (IndexGetKey : Nat → Nat → Nat → IndexKey) (items : List (IndexKey × IndexMetric))
    (t t1 : BackendStatsContext TableKey IndexKey)
    (hwf : t.WellFormed TableGetKey IndexGetKey)
    (hrun : items.foldlM
      (fun t item => BackendStatsContext.AggregateIndexItem IndexGetKey t item) t = some t1) :
    t1.WellFormed TableGetKey IndexGetKey := by
  induction items generalizing t with
  | nil =>
    simp only [List.foldlM_nil, Option.pure_def, Option.some.injEq] at hrun
    rw [← hrun]; exact hwf
  | cons e items ih =>
    rw [List.foldlM_cons, AggregateIndexItem_eq] at hrun
    simp only [Option.bind_eq_bind, Option.some_bind] at hrun
    refine ih _ (WellFormed_assign_index TableGetKey IndexGetKey t _ _ hwf ?_) hrun
    cases hfind : find t.index_metrics_
        (IndexGetKey e.2.GetDatabaseId e.2.GetTableId e.2.GetIndexId) with
    | none => rfl
    | some v0 => exact hwf.2.2.2.2 _ (mem_of_find_eq_some _ _ _ hfind)

/-- `Aggregate` keeps the invariant of the target. -/
theorem WellFormed_Aggregate (TableGetKey : Nat → Nat → TableKey)
    (IndexGetKey : Nat → Nat → Nat → IndexKey)
    (target source t1 s1 : BackendStatsContext TableKey IndexKey)
    (hwf : target.WellFormed TableGetKey IndexGetKey)
    (hrun : target.Aggregate TableGetKey IndexGetKey source = some (t1, s1)) :
    t1.WellFormed TableGetKey IndexGetKey := by
  unfold BackendStatsContext.Aggregate at hrun
  cases hD : source.database_metrics_.foldlM
      (fun t item => BackendStatsContext.AggregateDatabaseItem t item) target with
  | none => rw [hD] at hrun; cases hrun
  | some a =>
    rw [hD] at hrun
    dsimp only at hrun
    cases hT : source.table_metrics_.foldlM
        (fun t item => BackendStatsContext.AggregateTableItem TableGetKey t item) a with
    | none => rw [hT] at hrun; cases hrun
    | some b =>
      rw [hT] at hrun
      dsimp only at hrun
      cases hI : source.index_metrics_.foldlM
          (fun t item => BackendStatsContext.AggregateIndexItem IndexGetKey t item) b with
      | none => rw [hI] at hrun; cases hrun
      | some c =>
        rw [hI] at hrun
        simp only [Option.some.injEq, Prod.mk.injEq] at hrun
        rw [← hrun.1]
        exact WellFormed_foldlM_index TableGetKey IndexGetKey _ b c
          (WellFormed_foldlM_table TableGetKey IndexGetKey _ a b
            (WellFormed_foldlM_database TableGetKey IndexGetKey _ target a hwf hD) hT) hI

end stats

end peloton
